import Mathlib

/-! ## Definitions: the shallow embedding and concrete fixtures -/

/-- JS `String.prototype.toLowerCase()` on the character list (the
character-wise definition keeps every use kernel-reducible). -/
def String.jsLower (s : String) : String := String.mk (s.toList.map Char.toLower)

/-- The zero address, as in viem's `zeroAddress`. -/
def zeroAddress : String := "0x0000000000000000000000000000000000000000"

/-- JS `x || zeroAddress` for an address-valued `x` (null is modelled by `""`). -/
def orZeroAddress (a : String) : String := if a == "" then zeroAddress else a

/-- JS `(index || txn.transactionIndex)`: `index` is used unless it is
`undefined` (`none`) or `0` (falsy). -/
def jsOrNat (a : Option Nat) (b : Nat) : Nat :=
  match a with
  | some n => if n == 0 then b else n
  | none => b

/-- JS `(log?.logIndex || txn.transactionIndex || now)`: first non-zero
of the three (`now` models `new Date().getTime()`). -/
def jsOrNat3 (a b c : Nat) : Nat :=
  if a != 0 then a else if b != 0 then b else c

/-- JS `hay.includes(needle)` (substring containment). -/
def jsIncludes (hay needle : String) : Bool :=
  hay.toList.tails.any (fun t => needle.toList.isPrefixOf t)

/-- Value of one hex digit (JS parsing; non-digits do not occur in inputs). -/
def hexDigitVal (c : Char) : Nat :=
  if '0' ≤ c ∧ c ≤ '9' then c.toNat - '0'.toNat
  else if 'a' ≤ c ∧ c ≤ 'f' then c.toNat - 'a'.toNat + 10
  else if 'A' ≤ c ∧ c ≤ 'F' then c.toNat - 'A'.toNat + 10
  else 0

/-- Decode a list of hex digits, two per byte. -/
def hexPairsToBytes : List Char → List Nat
  | a :: b :: rest => (hexDigitVal a * 16 + hexDigitVal b) :: hexPairsToBytes rest
  | _ => []

/-- viem `hexToString` seen as the byte sequence of the decoded string:
strip the `0x` and decode hex pairs. -/
def hexToBytes (s : String) : List Nat :=
  hexPairsToBytes (s.toList.drop 2)

/-- The byte sequence of an ASCII string literal. -/
def strBytes (s : String) : List Nat := s.toList.map Char.toNat

/-- Fuel recursion for `chunk64`: the fuel (initially the length)
bounds the number of chunks, keeping the definition kernel-reducible. -/
def chunk64Aux : Nat → List Char → List (List Char)
  | _, [] => []
  | 0, _ => []
  | fuel + 1, l => l.take 64 :: chunk64Aux fuel (l.drop 64)

/-- `.{1,64}` chunking of `String.match`, on the character list. -/
def chunk64 (l : List Char) : List (List Char) := chunk64Aux l.length l

/-- `SEGMENT_SIZE` from the source. -/
def SEGMENT_SIZE : Nat := 64

/-- `CONFIRMATIONS` from the source. -/
def CONFIRMATIONS : Nat := 6

/-- `BLOCK_HISTORY` from the source. -/
def BLOCK_HISTORY : Nat := 30

/-- Modelled from the spec: the ESIP-1 transfer log signature constant
(`esips.TransferEthscriptionSignature`; the constants module is not in
the snapshot, so an opaque distinct string stands for the topic hash). -/
def TransferEthscriptionSignature : String := "0xesip1-transfer-signature"

/-- Modelled from the spec: the ESIP-2 transfer-for-previous-owner log
signature constant (`esips.TransferEthscriptionForPreviousOwnerSignature`). -/
def TransferEthscriptionForPreviousOwnerSignature : String :=
  "0xesip2-transfer-for-previous-owner-signature"

/-- An ethscription row (`models/db`): identity, ownership and lock state. -/
structure Ethscription where
  hashId : String
  sha : String
  owner : String
  prevOwner : Option String
  creator : String
  tokenId : Nat
  locked : Bool
deriving DecidableEq

/-- A row of the pre-seeded SHA-to-tokenId dictionary (`PhunkSha`). -/
structure PhunkSha where
  sha : String
  tokenId : Nat
deriving DecidableEq

/-- A listing row: at most one per `hashId`. -/
structure Listing where
  hashId : String
  seller : String
  toAddress : String
  minValue : Nat
  createdAt : Nat
deriving DecidableEq

/-- A row of the append-only `events` table (`models/db` `Event`). -/
structure Event where
  txId : String
  type : String
  hashId : String
  fromAddr : String
  toAddr : String
  blockHash : String
  txIndex : Nat
  txHash : String
  blockNumber : Nat
  blockTimestamp : Nat
  value : String
deriving DecidableEq

/-- The derived datastore: ethscriptions, the SHA dictionary, listings,
user points, the events table and the `lastBlock` checkpoint. -/
structure DB where
  ethscriptions : List Ethscription
  phunkShas : List PhunkSha
  listings : List Listing
  points : List (String × Nat)
  events : List Event
  lastBlock : Option (Nat × Nat)
deriving DecidableEq

/-- Modelled from the spec: `checkEthscriptionExistsByHashId` /
`getEthscriptionByHashId` — resolve a hashId to its row (hashIds are
stored lowercased; the lookup is case-insensitive on the argument). -/
def findEthscriptionByHashId (db : DB) (hashId : String) : Option Ethscription :=
  db.ethscriptions.find? (fun e => e.hashId.jsLower == hashId.jsLower)

/-- Modelled from the spec: `checkEthscriptionExistsBySha` — whether some
ethscription already carries this payload SHA. -/
def checkEthscriptionExistsBySha (db : DB) (sha : String) : Bool :=
  db.ethscriptions.any (fun e => e.sha == sha)

/-- Modelled from the spec: `checkIsEthPhunk` / `checkIsEthscriptionSha`
— look the SHA up in the pre-seeded dictionary. -/
def checkIsEthPhunk (db : DB) (sha : String) : Option PhunkSha :=
  db.phunkShas.find? (fun p => p.sha == sha)

/-- Modelled from the spec: `addEthPhunk` / `addEthscription` — insert
the freshly created row (`hashId = tx.hash.lower()`, `owner = tx.to or
zeroAddress`, `creator = tx.from`, `prevOwner = null`,
`tokenId = dictionary[sha]`). -/
def addEthPhunk (db : DB) (hashId sha owner creator : String) (tokenId : Nat) : DB :=
  { db with ethscriptions :=
      db.ethscriptions ++
        [{ hashId := hashId, sha := sha, owner := owner, prevOwner := none,
           creator := creator, tokenId := tokenId, locked := false }] }

/-- Modelled from the spec: `updateEthscriptionOwner` / `updateOwner
(hashId, expectedOwner, newOwner)` — compare-and-set: every row with
this hashId whose owner equals the expected owner gets
`prevOwner := owner, owner := newOwner`. -/
def updateEthscriptionOwner (db : DB) (hashId expectedOwner newOwner : String) : DB :=
  { db with ethscriptions := db.ethscriptions.map (fun e =>
      if e.hashId.jsLower == hashId.jsLower && e.owner == expectedOwner
      then { e with prevOwner := some e.owner, owner := newOwner }
      else e) }

/-- Modelled from the spec: `createListing` / `upsertListing` — replace
any listing of the same hashId (at most one per hashId), seller being
the transaction sender. -/
def createListing (db : DB) (seller : String) (createdAt : Nat)
    (hashId toAddress : String) (minValue : Nat) : DB :=
  { db with listings :=
      { hashId := hashId, seller := seller, toAddress := toAddress,
        minValue := minValue, createdAt := createdAt } ::
      db.listings.filter (fun l => !(l.hashId.jsLower == hashId.jsLower)) }

/-- Modelled from the spec: `removeListing(hashId) → bool` — delete the
listing and report whether one existed. -/
def removeListing (db : DB) (hashId : String) : Bool × DB :=
  (db.listings.any (fun l => l.hashId.jsLower == hashId.jsLower),
   { db with listings :=
       db.listings.filter (fun l => !(l.hashId.jsLower == hashId.jsLower)) })

/-- The listing currently held for a hashId, if any. -/
def lookupListing (db : DB) (hashId : String) : Option Listing :=
  db.listings.find? (fun l => l.hashId.jsLower == hashId.jsLower)

/-- Modelled from the spec: `updateUserPoints(addr, n)` — overwrite the
stored total for the user. -/
def updateUserPoints (db : DB) (user : String) (n : Nat) : DB :=
  { db with points := (user, n) :: db.points.filter (fun p => !(p.1 == user)) }

/-- The stored points total of a user, if any. -/
def lookupPoints (db : DB) (user : String) : Option Nat :=
  (db.points.find? (fun p => p.1 == user)).map (·.2)

/-- Modelled from the spec: `lockEthscription(hashId) → bool` — mark the
row locked for bridge escrow, reporting whether the row exists. -/
def lockEthscription (db : DB) (hashId : String) : Bool × DB :=
  (db.ethscriptions.any (fun e => e.hashId.jsLower == hashId.jsLower),
   { db with ethscriptions := db.ethscriptions.map (fun e =>
       if e.hashId.jsLower == hashId.jsLower then { e with locked := true } else e) })

/-- Modelled from the spec: `addEvents(events[])` — append, idempotent
on `txId` (rows whose txId is already present are skipped). -/
def addEvents (db : DB) (evs : List Event) : DB :=
  { db with events :=
      db.events ++ evs.filter (fun e => !(db.events.any (fun x => x.txId == e.txId))) }

/-- Modelled from the spec: `updateLastBlock(n, timestamp)`. -/
def updateLastBlock (db : DB) (n createdAt : Nat) : DB :=
  { db with lastBlock := some (n, createdAt) }

/-- The decoded payload of a log (`decodeEventLog` output), a closed
family: the ESIP transfer events, the three marketplace events this
service handles, the points event and the two bridge events.
`otherEvent` stands for any successfully decoded event the code does
not branch on (a decode failure behaves the same at every use site:
the marketplace loop catches it and continues, and the other loops
never reach one because they filter on the topic signature first). -/
inductive Decoded where
  | esip1 (recipient hashId : String)
  | esip2 (previousOwner recipient hashId : String)
  | phunkOffered (phunkId toAddress : String) (minValue : Nat)
  | phunkBought (phunkId fromAddress toAddress : String) (value : Nat)
  | phunkNoLongerForSale (phunkId : String)
  | pointsAdded (user : String) (amount : Nat)
  | hashLocked (prevOwner hashId : String)
  | hashUnlocked (prevOwner hashId : String)
  | otherEvent
deriving DecidableEq

/-- A receipt log: address, first topic, logIndex, decoded payload. -/
structure LogRec where
  address : String
  topic0 : String
  logIndex : Nat
  decoded : Decoded
deriving DecidableEq

/-- A transaction, the fields the pipeline reads. `toAddr` is `""` when
`tx.to` is null (contract creation). -/
structure Tx where
  hash : String
  fromAddr : String
  toAddr : String
  input : String
  value : Nat
  transactionIndex : Nat
  blockNumber : Nat
  blockHash : String
deriving DecidableEq

/-- A transaction receipt: status, index and logs. -/
structure Receipt where
  status : Bool
  transactionIndex : Nat
  logs : List LogRec
deriving DecidableEq

/-- A block as returned by `getBlock(n, includeTransactions=true)`. -/
structure Block where
  number : Nat
  hash : String
  parentHash : String
  timestamp : Nat
  transactions : List (Tx × Receipt)
deriving DecidableEq

/-- The pure oracles for every external call the pipeline makes:
`sha256hex` over the cleaned payload bytes, the ESIP-5 ethscription
validator (`web3SvcL1.getValidTransactions`), the points view call
(`web3SvcL1.getPoints`), `getBlock`, the configured contract addresses
and the wall clock (`new Date().getTime()`). -/
structure Env where
  sha256hex : List Nat → String
  validateEthscriptions : List String → List String
  getPoints : String → Nat
  getBlock : Nat → Block
  marketAddress : String
  bridgeAddress : String
  pointsAddress : String
  now : Nat

/-- `processEtherPhunkCreationEvent(txn, createdAt, phunkShaData)`:
insert the phunk row and build the `created` event.  The insert itself
(`sbSvc.addEthPhunk`) is modelled from the spec (see `addEthPhunk`);
the event literal mirrors the source field by field. -/
def processEtherPhunkCreationEvent (db : DB) (txn : Tx) (createdAt : Nat)
    (phunkShaData : PhunkSha) (sha : String) : Event × DB :=
  let db1 := addEthPhunk db txn.hash.jsLower sha (orZeroAddress txn.toAddr)
    txn.fromAddr phunkShaData.tokenId
  ({ txId := txn.hash.jsLower ++ toString txn.transactionIndex,
     type := "created",
     hashId := txn.hash.jsLower,
     fromAddr := txn.fromAddr.jsLower,
     toAddr := (orZeroAddress txn.toAddr).jsLower,
     blockHash := txn.blockHash.jsLower,
     txIndex := txn.transactionIndex,
     txHash := txn.hash.jsLower,
     blockNumber := txn.blockNumber,
     blockTimestamp := createdAt,
     value := "0" }, db1)

/-- `processTransferEvent(hashId, txn, createdAt, index?)`: the direct
calldata / batch-item transfer.  Guards: row exists, stored hashId
matches, transferrer is the owner (case-insensitive); then the
compare-and-set owner update and the `transfer` event whose txId is
`txn.hash + (index || txn.transactionIndex)`. -/
def processTransferEvent (db : DB) (hashId : String) (txn : Tx)
    (createdAt : Nat) (index : Option Nat) : Option Event × DB :=
  match findEthscriptionByHashId db hashId with
  | none => (none, db)
  | some ethscript =>
    let isMatchedHashId := ethscript.hashId.jsLower == hashId.jsLower
    let transferrerIsOwner := ethscript.owner.jsLower == txn.fromAddr.jsLower
    if !isMatchedHashId || !transferrerIsOwner then (none, db)
    else
      let db1 := updateEthscriptionOwner db hashId ethscript.owner txn.toAddr
      (some { txId := txn.hash ++ toString (jsOrNat index txn.transactionIndex),
              type := "transfer",
              hashId := ethscript.hashId.jsLower,
              fromAddr := txn.fromAddr.jsLower,
              toAddr := (orZeroAddress txn.toAddr).jsLower,
              blockHash := txn.blockHash,
              txIndex := txn.transactionIndex,
              txHash := txn.hash,
              blockNumber := txn.blockNumber,
              blockTimestamp := createdAt,
              value := toString txn.value }, db1)

/-- `processContractTransferEvent(txn, createdAt, from, to, hashId, log,
value?, prevOwner?)`: the ESIP-1 / ESIP-2 log transfer.  Guards as the
direct transfer plus the previous-owner agreement (only when both the
stored `prevOwner` and the hint are non-null); txId falls back through
`log?.logIndex || txn.transactionIndex || new Date().getTime()` (the
wall clock is the `now` argument). -/
def processContractTransferEvent (db : DB) (txn : Tx) (createdAt : Nat)
    (fromA toA hashId : String) (log : LogRec) (value : Nat)
    (prevOwner : Option String) (now : Nat) : Option Event × DB :=
  match findEthscriptionByHashId db hashId with
  | none => (none, db)
  | some ethscript =>
    let isMatchedHashId := ethscript.hashId.jsLower == hashId.jsLower
    let transferrerIsOwner := ethscript.owner.jsLower == fromA.jsLower
    let samePrevOwner :=
      match ethscript.prevOwner, prevOwner with
      | some p, some q => p.jsLower == q.jsLower
      | _, _ => true
    if !isMatchedHashId || !transferrerIsOwner || !samePrevOwner then (none, db)
    else
      let db1 := updateEthscriptionOwner db ethscript.hashId ethscript.owner toA
      (some { txId := txn.hash ++ toString (jsOrNat3 log.logIndex txn.transactionIndex now),
              type := "transfer",
              hashId := ethscript.hashId.jsLower,
              fromAddr := fromA.jsLower,
              toAddr := (orZeroAddress toA).jsLower,
              blockHash := txn.blockHash,
              txIndex := txn.transactionIndex,
              txHash := txn.hash,
              blockNumber := txn.blockNumber,
              blockTimestamp := createdAt,
              value := toString value }, db1)

/-- The loop body of `processEsip1`: for each filtered log, decode and
apply the contract transfer with `from = log.address`, a null
previous-owner hint and `value = transaction.value`.  (A log whose
payload is not an ESIP-1 transfer cannot occur after the topic filter;
such a log is skipped.) -/
def esip1Loop (txn : Tx) (createdAt : Nat) (now : Nat) :
    DB → List LogRec → List Event × DB
  | db, [] => ([], db)
  | db, log :: rest =>
    match log.decoded with
    | Decoded.esip1 recipient hashId =>
      match processContractTransferEvent db txn createdAt log.address recipient
        hashId log txn.value none now with
      | (some ev, db1) =>
        let (evs, db2) := esip1Loop txn createdAt now db1 rest
        (ev :: evs, db2)
      | (none, db1) => esip1Loop txn createdAt now db1 rest
    | _ => esip1Loop txn createdAt now db rest

/-- `processEsip1(ethscriptionTransfers, transaction, createdAt)`. -/
def processEsip1 (db : DB) (ethscriptionTransfers : List LogRec) (txn : Tx)
    (createdAt : Nat) (now : Nat) : List Event × DB :=
  esip1Loop txn createdAt now db ethscriptionTransfers

/-- The loop body of `processEsip2`: as ESIP-1 but the decoded
`previousOwner` is passed as the prevOwner hint. -/
def esip2Loop (txn : Tx) (createdAt : Nat) (now : Nat) :
    DB → List LogRec → List Event × DB
  | db, [] => ([], db)
  | db, log :: rest =>
    match log.decoded with
    | Decoded.esip2 previousOwner recipient hashId =>
      match processContractTransferEvent db txn createdAt log.address recipient
        hashId log txn.value (some previousOwner) now with
      | (some ev, db1) =>
        let (evs, db2) := esip2Loop txn createdAt now db1 rest
        (ev :: evs, db2)
      | (none, db1) => esip2Loop txn createdAt now db1 rest
    | _ => esip2Loop txn createdAt now db rest

/-- `processEsip2(previousOwnerTransfers, transaction, createdAt)`. -/
def processEsip2 (db : DB) (previousOwnerTransfers : List LogRec) (txn : Tx)
    (createdAt : Nat) (now : Nat) : List Event × DB :=
  esip2Loop txn createdAt now db previousOwnerTransfers

/-- The loop of `processEsip5`: process each validator-returned hash as
a direct transfer, the loop counter `i` being its position in the
*valid* list.  (The per-item `try/catch { console.log }` of the source
is invisible in the pure model.) -/
def esip5Loop (txn : Tx) (createdAt : Nat) :
    DB → List String → Nat → List Event × DB
  | db, [], _ => ([], db)
  | db, h :: rest, i =>
    match processTransferEvent db h.jsLower txn createdAt (some i) with
    | (some ev, db1) =>
      let (evs, db2) := esip5Loop txn createdAt db1 rest (i + 1)
      (ev :: evs, db2)
    | (none, db1) => esip5Loop txn createdAt db1 rest (i + 1)

/-- `processEsip5(txn, createdAt)`: split the calldata into 32-byte
words, validate the whole list through the external validator, then
run the loop from index 0. -/
def processEsip5 (env : Env) (db : DB) (txn : Tx) (createdAt : Nat) :
    List Event × DB :=
  let data := txn.input.toList.drop 2
  if data.length % SEGMENT_SIZE != 0 then ([], db)
  else
    let allHashes := (chunk64 data).map (fun h => "0x" ++ String.mk h)
    let validHashes := env.validateEthscriptions allHashes
    if validHashes.length == 0 then ([], db)
    else esip5Loop txn createdAt db validHashes 0

/-- `processEtherPhunkMarketplaceEvent(txn, createdAt, decoded, log)`:
the three marketplace events this service handles.  `args.id ||
args.phunkId || args.potentialEthscriptionId` is the payload's phunkId
(empty string being the falsy case), and the stale-listing rule of
`PhunkOffered` compares `phunk.prevOwner !== txn.from` exactly as the
source does (case-sensitive).  The `writeFile('./failed/…')` side
effect of the stale branch has no datastore footprint and is elided. -/
def processEtherPhunkMarketplaceEvent (db : DB) (txn : Tx) (createdAt : Nat)
    (decoded : Decoded) (log : LogRec) : Option Event × DB :=
  let hashIdOpt : Option String :=
    match decoded with
    | Decoded.phunkOffered p _ _ => if p == "" then none else some p
    | Decoded.phunkBought p _ _ _ => if p == "" then none else some p
    | Decoded.phunkNoLongerForSale p => if p == "" then none else some p
    | _ => none
  match hashIdOpt with
  | none => (none, db)
  | some hashId0 =>
    match findEthscriptionByHashId db hashId0 with
    | none => (none, db)
    | some phunk =>
      match decoded with
      | Decoded.phunkBought hashId fromAddress toAddress value =>
        let r := removeListing db hashId
        if !r.1 then (none, r.2)
        else
          (some { txId := txn.hash ++ toString log.logIndex,
                  type := "PhunkBought",
                  hashId := hashId.jsLower,
                  fromAddr := fromAddress.jsLower,
                  toAddr := toAddress.jsLower,
                  blockHash := txn.blockHash,
                  txIndex := txn.transactionIndex,
                  txHash := txn.hash,
                  blockNumber := txn.blockNumber,
                  blockTimestamp := createdAt,
                  value := toString value }, r.2)
      | Decoded.phunkNoLongerForSale hashId =>
        let r := removeListing db hashId
        if !r.1 then (none, r.2)
        else
          if (match phunk.prevOwner with
              | some p => txn.fromAddr == p
              | none => false) then
            (some { txId := txn.hash ++ toString log.logIndex,
                    type := "PhunkNoLongerForSale",
                    hashId := hashId.jsLower,
                    fromAddr := txn.fromAddr.jsLower,
                    toAddr := zeroAddress,
                    blockHash := txn.blockHash,
                    txIndex := txn.transactionIndex,
                    txHash := txn.hash,
                    blockNumber := txn.blockNumber,
                    blockTimestamp := createdAt,
                    value := "0" }, r.2)
          else (none, r.2)
      | Decoded.phunkOffered hashId toAddress minValue =>
        if (match phunk.prevOwner with
            | some p => !(p == txn.fromAddr)
            | none => false) then
          -- listing not created by the previous owner: delete and emit nothing
          (none, (removeListing db hashId).2)
        else
          let db1 := createListing db txn.fromAddr createdAt hashId toAddress minValue
          (some { txId := txn.hash ++ toString log.logIndex,
                  type := "PhunkOffered",
                  hashId := hashId.jsLower,
                  fromAddr := txn.fromAddr.jsLower,
                  toAddr := toAddress.jsLower,
                  blockHash := txn.blockHash,
                  txIndex := txn.transactionIndex,
                  txHash := txn.hash,
                  blockNumber := txn.blockNumber,
                  blockTimestamp := createdAt,
                  value := toString minValue }, db1)
      | _ => (none, db)

/-- The loop of `processEtherPhunkMarketplaceEvents`: skip logs whose
lowercased address is not contained in the configured marketplace
address (`marketAddressL1.includes(...)`) and fold the per-event
processor over the rest. -/
def marketplaceLoop (env : Env) (txn : Tx) (createdAt : Nat) :
    DB → List LogRec → List Event × DB
  | db, [] => ([], db)
  | db, log :: rest =>
    if !(jsIncludes env.marketAddress log.address.jsLower) then
      marketplaceLoop env txn createdAt db rest
    else
      match processEtherPhunkMarketplaceEvent db txn createdAt log.decoded log with
      | (some ev, db1) =>
        let (evs, db2) := marketplaceLoop env txn createdAt db1 rest
        (ev :: evs, db2)
      | (none, db1) => marketplaceLoop env txn createdAt db1 rest

/-- `processEtherPhunkMarketplaceEvents(marketplaceLogs, transaction, createdAt)`. -/
def processEtherPhunkMarketplaceEvents (env : Env) (db : DB)
    (marketplaceLogs : List LogRec) (txn : Tx) (createdAt : Nat) :
    List Event × DB :=
  marketplaceLoop env txn createdAt db marketplaceLogs

/-- The user-collection pass of `processPointsEvent`: gather the
distinct `PointsAdded` users in first-appearance order (a JS `Set`). -/
def collectPointsUsers (logs : List LogRec) : List String :=
  logs.foldl (fun acc log =>
    match log.decoded with
    | Decoded.pointsAdded user _ => if acc.contains user then acc else acc ++ [user]
    | _ => acc) []

/-- `distributePoints(fromAddress)`: read the on-chain total and
overwrite the stored one (the L1 branch; errors are swallowed). -/
def distributePoints (env : Env) (db : DB) (user : String) : DB :=
  updateUserPoints db user (env.getPoints user)

/-- `processPointsEvent(pointsLogs)`: collect the users, then refresh
each one from the chain. -/
def processPointsEvent (env : Env) (db : DB) (logs : List LogRec) : DB :=
  (collectPointsUsers logs).foldl (distributePoints env) db

/-- `processBridgeMainnetEvents(bridgeMainnetLogs)`: `HashLocked` marks
the row locked and enqueues the bridge-out job (the queue is external);
the source throws when the row is missing — the pure model does not
track that exception (no claim depends on it).  `HashUnlocked` is a
no-op in the source (its body is commented out). -/
def processBridgeMainnetEvents (db : DB) (logs : List LogRec) : DB :=
  logs.foldl (fun db log =>
    match log.decoded with
    | Decoded.hashLocked _ hashId => (lockEthscription db hashId).2
    | _ => db) db

/-- The tail of `processEthscriptionsEvents` after the marketplace
block: the bridge filter (whose branch returns early, before points),
then the points filter. -/
def bridgeAndPointsTail (env : Env) (db : DB) (receipt : Receipt)
    (events : List Event) : Option (List Event) × DB :=
  let bridgeMainnetLogs := receipt.logs.filter
    (fun log => log.address.jsLower == env.bridgeAddress.jsLower)
  if bridgeMainnetLogs.length != 0 then
    let db1 := processBridgeMainnetEvents db bridgeMainnetLogs
    (some events, db1)
  else
    let pointsLogs := receipt.logs.filter
      (fun log => log.address.jsLower == env.pointsAddress.jsLower)
    if pointsLogs.length != 0 then
      let db1 := processPointsEvent env db pointsLogs
      (some events, db1)
    else (some events, db)

/-- Whether the calldata is exactly one 32-byte word
(`input.substring(2).length === SEGMENT_SIZE`). -/
def possibleTransferB (txn : Tx) : Bool :=
  (txn.input.toList.drop 2).length == SEGMENT_SIZE

/-- Whether the calldata is a whole number of 32-byte words
(`input.substring(2).length % SEGMENT_SIZE === 0`). -/
def possibleBatchTransferB (txn : Tx) : Bool :=
  (txn.input.toList.drop 2).length % SEGMENT_SIZE == 0

/-- The single-word transfer block of `processEthscriptionsEvents`:
when the calldata is one word, run the direct transfer on the whole
input and push its event if any. -/
def transferStage (db : DB) (txn : Tx) (createdAt : Nat)
    (events : List Event) : List Event × DB :=
  if possibleTransferB txn then
    match processTransferEvent db txn.input txn createdAt none with
    | (some ev, dbA) => (events ++ [ev], dbA)
    | (none, dbA) => (events, dbA)
  else (events, db)

/-- The batch-transfer block: when the calldata is several words (and
not a single one), run the ESIP-5 processor and push its events. -/
def batchStage (env : Env) (db : DB) (txn : Tx) (createdAt : Nat)
    (events : List Event) : List Event × DB :=
  if !possibleTransferB txn && possibleBatchTransferB txn then
    let r := processEsip5 env db txn createdAt
    (events ++ r.1, r.2)
  else (events, db)

/-- The ESIP-1 block: filter logs on the transfer topic signature and
process them when any are present. -/
def esip1Stage (db : DB) (receipt : Receipt) (txn : Tx) (createdAt now : Nat)
    (events : List Event) : List Event × DB :=
  let esip1Transfers := receipt.logs.filter
    (fun log => log.topic0 == TransferEthscriptionSignature)
  if esip1Transfers.length != 0 then
    let r := processEsip1 db esip1Transfers txn createdAt now
    (events ++ r.1, r.2)
  else (events, db)

/-- The ESIP-2 block: as ESIP-1 with the previous-owner signature. -/
def esip2Stage (db : DB) (receipt : Receipt) (txn : Tx) (createdAt now : Nat)
    (events : List Event) : List Event × DB :=
  let esip2Transfers := receipt.logs.filter
    (fun log => log.topic0 == TransferEthscriptionForPreviousOwnerSignature)
  if esip2Transfers.length != 0 then
    let r := processEsip2 db esip2Transfers txn createdAt now
    (events ++ r.1, r.2)
  else (events, db)

/-- `processEthscriptionsEvents(transaction, receipt, createdAt)`:
the per-transaction classifier.  Stage order and early returns follow
the source exactly: failed status returns undefined (`none`); any
cleaned calldata starting with `data:` returns `[]` at once — which
makes the phunk-creation branch below it unreachable (the source marks
it `DISABLED`); then the single-word transfer, the ESIP-5 batch, the
ESIP-1 and ESIP-2 log filters, the marketplace block (returning early
when it produced no events), and the bridge/points tail. -/
def processEthscriptionsEvents (env : Env) (db : DB) (txn : Tx)
    (receipt : Receipt) (createdAt : Nat) : Option (List Event) × DB :=
  if receipt.status != true then (none, db)
  else
    let stringData := hexToBytes txn.input
    let cleanedString := stringData.filter (fun b => b != 0)
    if (strBytes "data:").isPrefixOf cleanedString then (some [], db)
    else
      let possibleEthPhunk :=
        (strBytes "data:image/svg+xml,").isPrefixOf cleanedString ||
        (strBytes "data:image/png;base64,").isPrefixOf cleanedString
      if possibleEthPhunk then
        let sha := env.sha256hex cleanedString
        match checkIsEthPhunk db sha with
        | none => (none, db)
        | some phunkSha =>
          if checkEthscriptionExistsBySha db sha then (none, db)
          else
            let r := processEtherPhunkCreationEvent db txn createdAt phunkSha sha
            (some [r.1], r.2)
      else
        let s1 := transferStage db txn createdAt []
        let s2 := batchStage env s1.2 txn createdAt s1.1
        let s3 := esip1Stage s2.2 receipt txn createdAt env.now s2.1
        let s4 := esip2Stage s3.2 receipt txn createdAt env.now s3.1
        let marketplaceLogs := receipt.logs.filter
          (fun log => log.address.jsLower == env.marketAddress.jsLower)
        if marketplaceLogs.length != 0 then
          let s5 := processEtherPhunkMarketplaceEvents env s4.2 marketplaceLogs txn createdAt
          if s5.1.length == 0 then (some s4.1, s5.2)
          else bridgeAndPointsTail env s5.2 receipt (s4.1 ++ s5.1)
        else bridgeAndPointsTail env s4.2 receipt s4.1

/-- An entry of the `processedBlocks` sliding window. -/
structure PBlock where
  number : Nat
  hash : String
  parentHash : String
  confirmed : Bool
deriving DecidableEq

/-- `processTransaction(transaction, receipt, createdAt)`: skip failed
transactions, otherwise collect the ethscription events (the NFT branch
is commented out in the source). -/
def processTransaction (env : Env) (db : DB) (txn : Tx) (receipt : Receipt)
    (createdAt : Nat) : Option (List Event) × DB :=
  if receipt.status != true then (none, db)
  else
    let r := processEthscriptionsEvents env db txn receipt createdAt
    (some (r.1.getD []), r.2)

/-- Stable insertion into a list sorted by `receipt.transactionIndex`
(the `Array.prototype.sort` comparator of the source). -/
def insertByTxIndex (p : Tx × Receipt) : List (Tx × Receipt) → List (Tx × Receipt)
  | [] => [p]
  | q :: rest =>
    if q.2.transactionIndex ≤ p.2.transactionIndex then q :: insertByTxIndex p rest
    else p :: q :: rest

/-- Sort transaction/receipt pairs by `receipt.transactionIndex`. -/
def sortByTxIndex : List (Tx × Receipt) → List (Tx × Receipt)
  | [] => []
  | p :: rest => insertByTxIndex p (sortByTxIndex rest)

/-- The body loop of `processTransactions`: fold the per-transaction
processor, concatenating events.  The source wraps each iteration in
`try/catch { retryBlock }`; the pure model raises no exceptions, so the
catch path cannot trigger here (the retry behaviour is modelled by
`retryBlock` and `retryBlockModel` below). -/
def processTxnsLoop (env : Env) (createdAt : Nat) :
    DB → List (Tx × Receipt) → List Event × DB
  | db, [] => ([], db)
  | db, p :: rest =>
    let r := processTransaction env db p.1 p.2 createdAt
    let rr := processTxnsLoop env createdAt r.2 rest
    ((r.1.getD []) ++ rr.1, rr.2)

/-- `processTransactions(txns, createdAt)`: drop `input == "0x"`
transactions, sort by transaction index, process in order. -/
def processTransactions (env : Env) (db : DB)
    (txns : List (Tx × Receipt)) (createdAt : Nat) : List Event × DB :=
  let filtered := txns.filter (fun p => p.1.input != "0x")
  let sorted := sortByTxIndex filtered
  processTxnsLoop env createdAt db sorted

/-- `retryBlock(blockNumber)`, successful pass: wait 5 s (time has no
datastore footprint), re-fetch the block, re-run `processTransactions`
— and drop its returned events on the floor.  The catch branch recurses
on the same block number; the attempt structure of that recursion is
`retryBlockModel`. -/
def retryBlock (env : Env) (db : DB) (blockNumber : Nat) : DB :=
  let block := env.getBlock blockNumber
  let createdAt := block.timestamp
  (processTransactions env db block.transactions createdAt).2

/-- The attempt structure of `retryBlock`'s recursion: `failing k` says
whether the `k`-th try of the body (`getBlock` + `processTransactions`)
throws; on a throw the source delays 5 s and recurses unconditionally.
`fuel` bounds how many tries we observe, so `none` means no try up to
the fuel succeeded (the recursion is still running); `some t` means the
`t`-th try succeeded and the recursion returned. -/
def retryBlockModel (failing : Nat → Bool) : Nat → Nat → Option Nat
  | _, 0 => none
  | attempt, fuel + 1 =>
    if failing attempt then retryBlockModel failing (attempt + 1) fuel
    else some (attempt + 1)

/-- `checkForReorg(block)`: when the window is non-empty, throw on a
parent-hash mismatch with the last processed entry, otherwise mark the
entry `CONFIRMATIONS` behind the end confirmed (the negative JS index
when the window is shorter reads `undefined` and skips). -/
def checkForReorg (processedBlocks : List PBlock) (block : Block) :
    Except String (List PBlock) :=
  if processedBlocks.length > 0 then
    match processedBlocks.getLast? with
    | none => Except.ok processedBlocks
    | some lastProcessedBlock =>
      if lastProcessedBlock.hash != block.parentHash then
        Except.error ("Reorg detected at block " ++ toString block.number)
      else
        if CONFIRMATIONS ≤ processedBlocks.length then
          Except.ok (processedBlocks.set (processedBlocks.length - CONFIRMATIONS)
            (match processedBlocks.get? (processedBlocks.length - CONFIRMATIONS) with
             | some e => { e with confirmed := true }
             | none => { number := 0, hash := "", parentHash := "", confirmed := true }))
        else Except.ok processedBlocks
  else Except.ok processedBlocks

/-- `processBlock(n, updateBlockDb)`: fetch the block, throw on a block
number mismatch, process the transactions, append the events, update
the checkpoint, push the window entry and trim to `BLOCK_HISTORY`.
The `checkForReorg` call of the source is commented out
(`// await this.checkForReorg(block);`), so no reorg check happens
here and the entry is pushed unconditionally. -/
def processBlock (env : Env) (processedBlocks : List PBlock) (db : DB)
    (n : Nat) (updateBlockDb : Bool) : Except String (List PBlock × DB) :=
  let block := env.getBlock n
  if n != block.number then
    Except.error ("Block number mismatch: " ++ toString n ++ " !== " ++ toString block.number)
  else
    let blockNumber := block.number
    let createdAt := block.timestamp
    -- the source's reorg check is disabled: `// await this.checkForReorg(block);`
    let r := processTransactions env db block.transactions createdAt
    let db2 := if r.1.length != 0 then addEvents r.2 r.1 else r.2
    let db3 := if updateBlockDb then updateLastBlock db2 blockNumber createdAt else db2
    let pushed := processedBlocks ++
      [{ number := blockNumber, hash := block.hash,
         parentHash := block.parentHash, confirmed := false }]
    let trimmed := if pushed.length > BLOCK_HISTORY then pushed.drop 1 else pushed
    Except.ok (trimmed, db3)

/-- The events table, checkpoint and points of the datastore are
untouched: the frame every transfer-related function preserves. -/
def TablesUntouched (a b : DB) : Prop :=
  b.events = a.events ∧ b.lastBlock = a.lastBlock ∧ b.points = a.points

/-- The events table and checkpoint are untouched: the frame the whole
per-transaction processor preserves (points may change, via the points
logs). -/
def EventsLogUntouched (a b : DB) : Prop :=
  b.events = a.events ∧ b.lastBlock = a.lastBlock

/-- A 32-byte word as hex calldata (64 hex digits). -/
def wordA : String := "0xaaaaaaaaaaaaaaaaaaaaaaaaaaaaaaaaaaaaaaaaaaaaaaaaaaaaaaaaaaaaaaaa"

/-- A trivial block oracle for environments that never fetch blocks. -/
def emptyBlock (n : Nat) : Block :=
  { number := n, hash := "0xh", parentHash := "0xp", timestamp := 0, transactions := [] }

/-- An empty datastore. -/
def dbEmpty : DB :=
  { ethscriptions := [], phunkShas := [], listings := [], points := [],
     events := [], lastBlock := none }

/-- An ethscription row owned by `0xbbb`. -/
def ethA : Ethscription :=
  { hashId := wordA, sha := "sha-a", owner := "0xbbb", prevOwner := none,
     creator := "0xccc", tokenId := 1, locked := false }

/-- A direct-transfer transaction from the owner of `ethA`. -/
def txA : Tx :=
  { hash := "0xhash1", fromAddr := "0xbbb", toAddr := "0xccc", input := wordA,
     value := 5, transactionIndex := 1, blockNumber := 100, blockHash := "0xbh" }

/-- A successful receipt with no logs. -/
def rcA : Receipt := { status := true, transactionIndex := 1, logs := [] }

/-- An environment whose block oracle returns a block containing the
direct transfer `txA`. -/
def envA : Env :=
  { sha256hex := fun _ => "",
     validateEthscriptions := fun l => l,
     getPoints := fun _ => 0,
     getBlock := fun n =>
       { number := n, hash := "0xh", parentHash := "0xp", timestamp := 0,
          transactions := [(txA, rcA)] },
     marketAddress := "0xmarket", bridgeAddress := "0xbridge",
     pointsAddress := "0xpoints", now := 123 }

/-- The window entry for block 100 with hash `0xaaa`. -/
def pb100 : PBlock := { number := 100, hash := "0xaaa", parentHash := "0x999", confirmed := false }

/-- A block 101 whose parentHash `0xbbb` does NOT match `pb100.hash`. -/
def blk101 : Block :=
  { number := 101, hash := "0xccc", parentHash := "0xbbb", timestamp := 7, transactions := [] }

/-- An environment whose block oracle serves the mismatching `blk101`. -/
def envC3 : Env :=
  { sha256hex := fun _ => "",
    validateEthscriptions := fun l => l,
    getPoints := fun _ => 0,
    getBlock := fun _ => blk101,
    marketAddress := "0xmarket", bridgeAddress := "0xbridge",
    pointsAddress := "0xpoints", now := 0 }

/-- The hex encoding of `data:image/svg+xml,<svg/>` as calldata. -/
def inputC1 : String := "0x646174613a696d6167652f7376672b786d6c2c3c7376672f3e"

/-- A creation-candidate transaction: its calldata decodes to a
`data:image/svg+xml,` payload. -/
def txC1 : Tx :=
  { hash := "0xc1hash", fromAddr := "0xaaa", toAddr := "0xbbb", input := inputC1,
    value := 0, transactionIndex := 3, blockNumber := 100, blockHash := "0xbh" }

/-- A successful receipt with no logs for the creation candidate. -/
def rcC1 : Receipt := { status := true, transactionIndex := 3, logs := [] }

/-- An environment whose SHA oracle maps the payload to `sha-w1`. -/
def envC1 : Env :=
  { sha256hex := fun _ => "sha-w1",
    validateEthscriptions := fun l => l,
    getPoints := fun _ => 0,
    getBlock := emptyBlock,
    marketAddress := "0xmarket", bridgeAddress := "0xbridge",
    pointsAddress := "0xpoints", now := 0 }

/-- A datastore whose dictionary holds the payload's SHA at tokenId 42,
with no ethscription inscribed yet. -/
def dbC1 : DB :=
  { ethscriptions := [], phunkShas := [{ sha := "sha-w1", tokenId := 42 }],
    listings := [], points := [], events := [], lastBlock := none }

/-- A points-contract log carrying `PointsAdded(user = 0xu1)`. -/
def logPointsC4 : LogRec :=
  { address := "0xpoints", topic0 := "0xtopic-points", logIndex := 0,
    decoded := Decoded.pointsAdded "0xu1" 5 }

/-- A bridge-contract log (`HashUnlocked`, a no-op in the source). -/
def logBridgeC4 : LogRec :=
  { address := "0xbridge", topic0 := "0xtopic-bridge", logIndex := 1,
    decoded := Decoded.hashUnlocked "0xaaa" "0xh1" }

/-- A transaction with inert calldata carrying both logs. -/
def txC4 : Tx :=
  { hash := "0xc4hash", fromAddr := "0xaaa", toAddr := "0xbbb", input := "0x1234",
    value := 0, transactionIndex := 0, blockNumber := 100, blockHash := "0xbh" }

/-- The receipt carrying a points log AND a bridge log. -/
def rcC4 : Receipt :=
  { status := true, transactionIndex := 0, logs := [logPointsC4, logBridgeC4] }

/-- An environment whose points oracle answers 77 for every user. -/
def envC4 : Env :=
  { sha256hex := fun _ => "",
    validateEthscriptions := fun l => l,
    getPoints := fun _ => 77,
    getBlock := emptyBlock,
    marketAddress := "0xmarket", bridgeAddress := "0xbridge",
    pointsAddress := "0xpoints", now := 0 }

/-- The single-points-log receipt for the C4 witness. -/
def rcC4w : Receipt := { status := true, transactionIndex := 0, logs := [logPointsC4] }

/-- The §4.5 guard list, written from the spec's words (not from the
code): the hashId resolves to a record, the record's owner equals the
from-address case-insensitively, and, when both the record's prevOwner
and the supplied hint are non-null, they agree case-insensitively. -/
def specTransferAccepts (db : DB) (hashId fromA : String) (hint : Option String) : Bool :=
  match findEthscriptionByHashId db hashId with
  | none => false
  | some e =>
    (e.owner.jsLower == fromA.jsLower) &&
    (match e.prevOwner, hint with
     | some p, some q => p.jsLower == q.jsLower
     | _, _ => true)

/-- An ethscription with a non-null prevOwner, for the guard witness. -/
def ethC2 : Ethscription :=
  { hashId := wordA, sha := "sha-c2", owner := "0xbbb", prevOwner := some "0xPPP",
    creator := "0xccc", tokenId := 2, locked := false }

/-- The datastore holding `ethC2`. -/
def dbC2 : DB := { dbEmpty with ethscriptions := [ethC2] }

/-- An ESIP-2 log whose hint matches `ethC2.prevOwner` up to case. -/
def logC2 : LogRec :=
  { address := "0xbbb", topic0 := TransferEthscriptionForPreviousOwnerSignature,
    logIndex := 2, decoded := Decoded.esip2 "0xppp" "0xddd" wordA }

/-- A second 32-byte word as hex calldata. -/
def wordB : String := "0xbbbbbbbbbbbbbbbbbbbbbbbbbbbbbbbbbbbbbbbbbbbbbbbbbbbbbbbbbbbbbbbb"

/-- A third 32-byte word as hex calldata. -/
def wordC : String := "0xcccccccccccccccccccccccccccccccccccccccccccccccccccccccccccccccc"

/-- An ethscription owned by the emitting contract, for the ESIP-1 case. -/
def ethC6 : Ethscription :=
  { hashId := wordB, sha := "sha-c6", owner := "0xescrow", prevOwner := none,
    creator := "0xccc", tokenId := 3, locked := false }

/-- The datastore holding `ethC6`. -/
def dbC6 : DB := { dbEmpty with ethscriptions := [ethC6] }

/-- An ESIP-1 transfer log sitting at `logIndex = 0`. -/
def logC6 : LogRec :=
  { address := "0xescrow", topic0 := TransferEthscriptionSignature,
    logIndex := 0, decoded := Decoded.esip1 "0xddd" wordB }

/-- The transaction carrying `logC6`, at transaction index 7. -/
def txC6 : Tx :=
  { hash := "0xc6hash", fromAddr := "0xaaa", toAddr := "0xescrow", input := "0xdead",
    value := 5, transactionIndex := 7, blockNumber := 100, blockHash := "0xbh" }

/-- An ethscription escrowed by the marketplace, listed by `0xs1`. -/
def ethM : Ethscription :=
  { hashId := wordC, sha := "sha-m", owner := "0xmarket", prevOwner := some "0xs1",
    creator := "0xccc", tokenId := 4, locked := false }

/-- The active listing for `ethM`, created by `0xs1`. -/
def listM : Listing :=
  { hashId := wordC, seller := "0xs1", toAddress := zeroAddress, minValue := 10,
    createdAt := 0 }

/-- The datastore holding `ethM` and its listing. -/
def dbM : DB := { dbEmpty with ethscriptions := [ethM], listings := [listM] }

/-- A marketplace `PhunkBought` log at logIndex 4. -/
def logM : LogRec :=
  { address := "0xmarket", topic0 := "0xtopic-market", logIndex := 4,
    decoded := Decoded.phunkBought wordC "0xs1" "0xbuyer" 10 }

/-- The transaction carrying `logM`. -/
def txM : Tx :=
  { hash := "0xmhash", fromAddr := "0xbuyer", toAddr := "0xmarket", input := "0xfeed",
    value := 10, transactionIndex := 2, blockNumber := 100, blockHash := "0xbh" }

/-- An offered-event sender who is not the phunk's previous owner. -/
def txS5 : Tx :=
  { hash := "0xs5hash", fromAddr := "0xBBB2", toAddr := "0xmarket", input := "0xfeed",
    value := 0, transactionIndex := 3, blockNumber := 100, blockHash := "0xbh" }

/-- A fourth 32-byte word as hex calldata. -/
def wordD : String := "0xdddddddddddddddddddddddddddddddddddddddddddddddddddddddddddddddd"

/-- A fifth 32-byte word as hex calldata. -/
def wordE : String := "0xeeeeeeeeeeeeeeeeeeeeeeeeeeeeeeeeeeeeeeeeeeeeeeeeeeeeeeeeeeeeeeee"

/-- Batch calldata: the three words `wordA ++ wordD ++ wordE`. -/
def inputC5 : String := "0xaaaaaaaaaaaaaaaaaaaaaaaaaaaaaaaaaaaaaaaaaaaaaaaaaaaaaaaaaaaaaaaaddddddddddddddddddddddddddddddddddddddddddddddddddddddddddddddddeeeeeeeeeeeeeeeeeeeeeeeeeeeeeeeeeeeeeeeeeeeeeeeeeeeeeeeeeeeeeeee"

/-- The batch-transfer transaction, at transaction index 7. -/
def txC5 : Tx :=
  { hash := "0xbatchhash", fromAddr := "0xbbb", toAddr := "0xccc", input := inputC5,
     value := 0, transactionIndex := 7, blockNumber := 100, blockHash := "0xbh" }

/-- The ethscription behind `wordE`, owned by the batch sender. -/
def ethE5 : Ethscription :=
  { hashId := wordE, sha := "sha-e", owner := "0xbbb", prevOwner := none,
     creator := "0xccc", tokenId := 5, locked := false }

/-- The datastore holding the sender-owned `wordA` and `wordE` rows
(`wordD` is not inscribed). -/
def dbC5 : DB := { dbEmpty with ethscriptions := [ethA, ethE5] }

/-- An environment whose validator accepts exactly `wordA` and `wordE`. -/
def envC5 : Env :=
  { sha256hex := fun _ => "",
     validateEthscriptions := fun hs => hs.filter (fun h => h == wordA || h == wordE),
     getPoints := fun _ => 0,
     getBlock := emptyBlock,
     marketAddress := "0xmarket", bridgeAddress := "0xbridge",
     pointsAddress := "0xpoints", now := 0 }

/-! ## Theorems -/

theorem addEthPhunk_events (db : DB) (h s o c : String) (t : Nat) :
    (addEthPhunk db h s o c t).events = db.events := rfl

theorem addEthPhunk_lastBlock (db : DB) (h s o c : String) (t : Nat) :
    (addEthPhunk db h s o c t).lastBlock = db.lastBlock := rfl

theorem updateEthscriptionOwner_events (db : DB) (h e n : String) :
    (updateEthscriptionOwner db h e n).events = db.events := rfl

theorem updateEthscriptionOwner_lastBlock (db : DB) (h e n : String) :
    (updateEthscriptionOwner db h e n).lastBlock = db.lastBlock := rfl

theorem updateEthscriptionOwner_points (db : DB) (h e n : String) :
    (updateEthscriptionOwner db h e n).points = db.points := rfl

theorem createListing_events (db : DB) (s : String) (c : Nat) (h t : String) (m : Nat) :
    (createListing db s c h t m).events = db.events := rfl

theorem createListing_lastBlock (db : DB) (s : String) (c : Nat) (h t : String) (m : Nat) :
    (createListing db s c h t m).lastBlock = db.lastBlock := rfl

theorem removeListing_events (db : DB) (h : String) :
    ((removeListing db h).2).events = db.events := rfl

theorem removeListing_lastBlock (db : DB) (h : String) :
    ((removeListing db h).2).lastBlock = db.lastBlock := rfl

theorem updateUserPoints_events (db : DB) (u : String) (n : Nat) :
    (updateUserPoints db u n).events = db.events := rfl

theorem updateUserPoints_lastBlock (db : DB) (u : String) (n : Nat) :
    (updateUserPoints db u n).lastBlock = db.lastBlock := rfl

theorem lockEthscription_events (db : DB) (h : String) :
    ((lockEthscription db h).2).events = db.events := rfl

theorem lockEthscription_lastBlock (db : DB) (h : String) :
    ((lockEthscription db h).2).lastBlock = db.lastBlock := rfl

theorem processEtherPhunkCreationEvent_events (db : DB) (txn : Tx) (c : Nat)
    (p : PhunkSha) (s : String) :
    ((processEtherPhunkCreationEvent db txn c p s).2).events = db.events := rfl

theorem processEtherPhunkCreationEvent_lastBlock (db : DB) (txn : Tx) (c : Nat)
    (p : PhunkSha) (s : String) :
    ((processEtherPhunkCreationEvent db txn c p s).2).lastBlock = db.lastBlock := rfl

theorem processTransferEvent_events (db : DB) (h : String) (txn : Tx)
    (c : Nat) (i : Option Nat) :
    ((processTransferEvent db h txn c i).2).events = db.events := by
  unfold processTransferEvent
  split
  · rfl
  · dsimp only
    split
    · rfl
    · rfl

theorem processTransferEvent_lastBlock (db : DB) (h : String) (txn : Tx)
    (c : Nat) (i : Option Nat) :
    ((processTransferEvent db h txn c i).2).lastBlock = db.lastBlock := by
  unfold processTransferEvent
  split
  · rfl
  · dsimp only
    split
    · rfl
    · rfl

theorem processTransferEvent_points (db : DB) (h : String) (txn : Tx)
    (c : Nat) (i : Option Nat) :
    ((processTransferEvent db h txn c i).2).points = db.points := by
  unfold processTransferEvent
  split
  · rfl
  · dsimp only
    split
    · rfl
    · rfl

theorem processContractTransferEvent_events (db : DB) (txn : Tx) (c : Nat)
    (f t h : String) (lg : LogRec) (v : Nat) (p : Option String) (now : Nat) :
    ((processContractTransferEvent db txn c f t h lg v p now).2).events = db.events := by
  unfold processContractTransferEvent
  split
  · rfl
  · dsimp only
    split
    · rfl
    · rfl

theorem processContractTransferEvent_lastBlock (db : DB) (txn : Tx) (c : Nat)
    (f t h : String) (lg : LogRec) (v : Nat) (p : Option String) (now : Nat) :
    ((processContractTransferEvent db txn c f t h lg v p now).2).lastBlock = db.lastBlock := by
  unfold processContractTransferEvent
  split
  · rfl
  · dsimp only
    split
    · rfl
    · rfl

theorem processContractTransferEvent_points (db : DB) (txn : Tx) (c : Nat)
    (f t h : String) (lg : LogRec) (v : Nat) (p : Option String) (now : Nat) :
    ((processContractTransferEvent db txn c f t h lg v p now).2).points = db.points := by
  unfold processContractTransferEvent
  split
  · rfl
  · dsimp only
    split
    · rfl
    · rfl

theorem TablesUntouched.tuSelf (a : DB) : TablesUntouched a a := ⟨rfl, rfl, rfl⟩

theorem TablesUntouched.tuChain {a b c : DB}
    (h1 : TablesUntouched a b) (h2 : TablesUntouched b c) : TablesUntouched a c :=
  ⟨h2.1.trans h1.1, h2.2.1.trans h1.2.1, h2.2.2.trans h1.2.2⟩

theorem processTransferEvent_tables (db : DB) (h : String) (txn : Tx)
    (c : Nat) (i : Option Nat) :
    TablesUntouched db ((processTransferEvent db h txn c i).2) :=
  ⟨processTransferEvent_events .., processTransferEvent_lastBlock ..,
   processTransferEvent_points ..⟩

theorem processContractTransferEvent_tables (db : DB) (txn : Tx) (c : Nat)
    (f t h : String) (lg : LogRec) (v : Nat) (p : Option String) (now : Nat) :
    TablesUntouched db ((processContractTransferEvent db txn c f t h lg v p now).2) :=
  ⟨processContractTransferEvent_events .., processContractTransferEvent_lastBlock ..,
   processContractTransferEvent_points ..⟩

theorem esip1Loop_tables (txn : Tx) (c now : Nat) (logs : List LogRec) :
    ∀ db : DB, TablesUntouched db ((esip1Loop txn c now db logs).2) := by
  induction logs with
  | nil => intro db; exact TablesUntouched.tuSelf db
  | cons log rest ih =>
    intro db
    unfold esip1Loop
    split
    next recipient hashId hdec =>
      split
      next ev db1 heq =>
        have hp := processContractTransferEvent_tables db txn c log.address recipient hashId log txn.value none now
        rw [heq] at hp
        exact hp.tuChain (ih db1)
      next db1 heq =>
        have hp := processContractTransferEvent_tables db txn c log.address recipient hashId log txn.value none now
        rw [heq] at hp
        exact hp.tuChain (ih db1)
    next _x hne =>
      exact ih db

theorem esip2Loop_tables (txn : Tx) (c now : Nat) (logs : List LogRec) :
    ∀ db : DB, TablesUntouched db ((esip2Loop txn c now db logs).2) := by
  induction logs with
  | nil => intro db; exact TablesUntouched.tuSelf db
  | cons log rest ih =>
    intro db
    unfold esip2Loop
    split
    next previousOwner recipient hashId hdec =>
      split
      next ev db1 heq =>
        have hp := processContractTransferEvent_tables db txn c log.address recipient hashId log txn.value (some previousOwner) now
        rw [heq] at hp
        exact hp.tuChain (ih db1)
      next db1 heq =>
        have hp := processContractTransferEvent_tables db txn c log.address recipient hashId log txn.value (some previousOwner) now
        rw [heq] at hp
        exact hp.tuChain (ih db1)
    next _x hne =>
      exact ih db

theorem esip5Loop_tables (txn : Tx) (c : Nat) (hashes : List String) :
    ∀ (db : DB) (i : Nat), TablesUntouched db ((esip5Loop txn c db hashes i).2) := by
  induction hashes with
  | nil => intro db i; exact TablesUntouched.tuSelf db
  | cons h rest ih =>
    intro db i
    unfold esip5Loop
    split
    next ev db1 heq =>
      have hp := processTransferEvent_tables db h.jsLower txn c (some i)
      rw [heq] at hp
      exact hp.tuChain (ih db1 (i + 1))
    next db1 heq =>
      have hp := processTransferEvent_tables db h.jsLower txn c (some i)
      rw [heq] at hp
      exact hp.tuChain (ih db1 (i + 1))

theorem processEsip5_tables (env : Env) (db : DB) (txn : Tx) (c : Nat) :
    TablesUntouched db ((processEsip5 env db txn c).2) := by
  simp only [processEsip5]
  split
  · exact TablesUntouched.tuSelf db
  · split
    · exact TablesUntouched.tuSelf db
    · exact esip5Loop_tables txn c _ db 0

theorem processEtherPhunkMarketplaceEvent_tables (db : DB) (txn : Tx) (c : Nat)
    (decoded : Decoded) (log : LogRec) :
    TablesUntouched db ((processEtherPhunkMarketplaceEvent db txn c decoded log).2) := by
  unfold processEtherPhunkMarketplaceEvent
  repeat' (first | exact TablesUntouched.tuSelf db | exact ⟨rfl, rfl, rfl⟩ | split | dsimp only)

theorem marketplaceLoop_tables (env : Env) (txn : Tx) (c : Nat) (logs : List LogRec) :
    ∀ db : DB, TablesUntouched db ((marketplaceLoop env txn c db logs).2) := by
  induction logs with
  | nil => intro db; exact TablesUntouched.tuSelf db
  | cons log rest ih =>
    intro db
    unfold marketplaceLoop
    split
    · exact ih db
    · split
      next ev db1 heq =>
        have hp := processEtherPhunkMarketplaceEvent_tables db txn c log.decoded log
        rw [heq] at hp
        exact hp.tuChain (ih db1)
      next db1 heq =>
        have hp := processEtherPhunkMarketplaceEvent_tables db txn c log.decoded log
        rw [heq] at hp
        exact hp.tuChain (ih db1)

theorem EventsLogUntouched.eluSelf (a : DB) : EventsLogUntouched a a := ⟨rfl, rfl⟩

theorem EventsLogUntouched.eluChain {a b c : DB}
    (h1 : EventsLogUntouched a b) (h2 : EventsLogUntouched b c) : EventsLogUntouched a c :=
  ⟨h2.1.trans h1.1, h2.2.trans h1.2⟩

theorem TablesUntouched.toEventsLog {a b : DB} (h : TablesUntouched a b) :
    EventsLogUntouched a b := ⟨h.1, h.2.1⟩

theorem pointsFoldl_untouched (env : Env) (users : List String) :
    ∀ db : DB, EventsLogUntouched db (users.foldl (distributePoints env) db) := by
  induction users with
  | nil => intro db; exact EventsLogUntouched.eluSelf db
  | cons u rest ih =>
    intro db
    rw [List.foldl_cons]
    exact (EventsLogUntouched.eluSelf db).eluChain (ih (distributePoints env db u))

theorem processPointsEvent_untouched (env : Env) (db : DB) (logs : List LogRec) :
    EventsLogUntouched db (processPointsEvent env db logs) :=
  pointsFoldl_untouched env (collectPointsUsers logs) db

theorem processBridgeMainnetEvents_tables (logs : List LogRec) :
    ∀ db : DB, TablesUntouched db (processBridgeMainnetEvents db logs) := by
  induction logs with
  | nil => intro db; exact TablesUntouched.tuSelf db
  | cons log rest ih =>
    intro db
    unfold processBridgeMainnetEvents
    rw [List.foldl_cons]
    have hstep : TablesUntouched db
        (match log.decoded with
         | Decoded.hashLocked _ hashId => (lockEthscription db hashId).2
         | _ => db) := by
      cases log.decoded <;> exact ⟨rfl, rfl, rfl⟩
    exact hstep.tuChain (ih _)

theorem bridgeAndPointsTail_untouched (env : Env) (db : DB) (receipt : Receipt)
    (events : List Event) :
    EventsLogUntouched db ((bridgeAndPointsTail env db receipt events).2) := by
  simp only [bridgeAndPointsTail]
  split
  · exact (processBridgeMainnetEvents_tables _ db).toEventsLog
  · split
    · exact processPointsEvent_untouched env db _
    · exact EventsLogUntouched.eluSelf db

theorem transferStage_tables (db : DB) (txn : Tx) (c : Nat) (events : List Event) :
    TablesUntouched db ((transferStage db txn c events).2) := by
  unfold transferStage
  split
  · split
    next ev dbA heq =>
      have hp := processTransferEvent_tables db txn.input txn c none
      rw [heq] at hp
      exact hp
    next dbA heq =>
      have hp := processTransferEvent_tables db txn.input txn c none
      rw [heq] at hp
      exact hp
  · exact TablesUntouched.tuSelf db

theorem batchStage_tables (env : Env) (db : DB) (txn : Tx) (c : Nat)
    (events : List Event) :
    TablesUntouched db ((batchStage env db txn c events).2) := by
  unfold batchStage
  split
  · exact processEsip5_tables env db txn c
  · exact TablesUntouched.tuSelf db

theorem esip1Stage_tables (db : DB) (receipt : Receipt) (txn : Tx)
    (c now : Nat) (events : List Event) :
    TablesUntouched db ((esip1Stage db receipt txn c now events).2) := by
  simp only [esip1Stage]
  split
  · exact esip1Loop_tables txn c now _ db
  · exact TablesUntouched.tuSelf db

theorem esip2Stage_tables (db : DB) (receipt : Receipt) (txn : Tx)
    (c now : Nat) (events : List Event) :
    TablesUntouched db ((esip2Stage db receipt txn c now events).2) := by
  simp only [esip2Stage]
  split
  · exact esip2Loop_tables txn c now _ db
  · exact TablesUntouched.tuSelf db

theorem processEthscriptionsEvents_untouched (env : Env) (db : DB) (txn : Tx)
    (receipt : Receipt) (c : Nat) :
    EventsLogUntouched db ((processEthscriptionsEvents env db txn receipt c).2) := by
  unfold processEthscriptionsEvents
  split
  · exact EventsLogUntouched.eluSelf db
  · dsimp only
    split
    · exact EventsLogUntouched.eluSelf db
    · split
      · split
        · exact EventsLogUntouched.eluSelf db
        · split
          · exact EventsLogUntouched.eluSelf db
          · exact ⟨rfl, rfl⟩
      · set s1 := transferStage db txn c [] with hs1
        set s2 := batchStage env s1.2 txn c s1.1 with hs2
        set s3 := esip1Stage s2.2 receipt txn c env.now s2.1 with hs3
        set s4 := esip2Stage s3.2 receipt txn c env.now s3.1 with hs4
        have h1 : EventsLogUntouched db s1.2 := (transferStage_tables db txn c []).toEventsLog
        have h2 : EventsLogUntouched db s2.2 :=
          h1.eluChain (batchStage_tables env s1.2 txn c s1.1).toEventsLog
        have h3 : EventsLogUntouched db s3.2 :=
          h2.eluChain (esip1Stage_tables s2.2 receipt txn c env.now s2.1).toEventsLog
        have h4 : EventsLogUntouched db s4.2 :=
          h3.eluChain (esip2Stage_tables s3.2 receipt txn c env.now s3.1).toEventsLog
        split
        · split
          · exact h4.eluChain (marketplaceLoop_tables env txn c _ s4.2).toEventsLog
          · exact (h4.eluChain (marketplaceLoop_tables env txn c _ s4.2).toEventsLog).eluChain
              (bridgeAndPointsTail_untouched env _ receipt _)
        · exact h4.eluChain (bridgeAndPointsTail_untouched env s4.2 receipt s4.1)

theorem processTransaction_untouched (env : Env) (db : DB) (txn : Tx)
    (receipt : Receipt) (c : Nat) :
    EventsLogUntouched db ((processTransaction env db txn receipt c).2) := by
  unfold processTransaction
  split
  · exact EventsLogUntouched.eluSelf db
  · exact processEthscriptionsEvents_untouched env db txn receipt c

theorem processTxnsLoop_untouched (env : Env) (c : Nat) (txns : List (Tx × Receipt)) :
    ∀ db : DB, EventsLogUntouched db ((processTxnsLoop env c db txns).2) := by
  induction txns with
  | nil => intro db; exact EventsLogUntouched.eluSelf db
  | cons p rest ih =>
    intro db
    unfold processTxnsLoop
    exact (processTransaction_untouched env db p.1 p.2 c).eluChain (ih _)

theorem processTransactions_untouched (env : Env) (db : DB)
    (txns : List (Tx × Receipt)) (c : Nat) :
    EventsLogUntouched db ((processTransactions env db txns c).2) :=
  processTxnsLoop_untouched env c _ db

/-- C10: every invocation of `retryBlock` leaves the events table and
the `lastBlock` checkpoint exactly as they were — the re-run never
calls `addEvents` or `updateLastBlock` — even though the ownership
mutations inside the re-run transaction processing do happen (second
conjunct: a concrete retry that rewrites an owner). -/
theorem c10_retryBlock_discards_events :
    (∀ (env : Env) (db : DB) (n : Nat),
        (retryBlock env db n).events = db.events ∧
        (retryBlock env db n).lastBlock = db.lastBlock) ∧
    (∃ (env : Env) (db : DB) (n : Nat),
        (retryBlock env db n).ethscriptions ≠ db.ethscriptions) := by
  constructor
  · intro env db n
    exact processTransactions_untouched env db (env.getBlock n).transactions
      (env.getBlock n).timestamp
  · exact ⟨envA, { dbEmpty with ethscriptions := [ethA] }, 0, by decide⟩

/-- C9 counterexample: the retry recursion has no attempt counter — with
the first nine tries failing, the block is simply retried until the
tenth try succeeds, where the claim demands the error become fatal
after the fifth. -/
theorem c9_retry_counterexample :
    retryBlockModel (fun k => decide (k < 9)) 0 20 = some 10 := by decide

/-- `retryBlockModel` with an oracle whose first `N` tries fail reaches
the successful try `N + 1` whenever the observation fuel allows. -/
theorem retryBlockModel_firstFailN (N : Nat) :
    ∀ (a fuel : Nat), a ≤ N → N - a < fuel →
      retryBlockModel (fun k => decide (k < N)) a fuel = some (N + 1) := by
  intro a fuel
  induction fuel generalizing a with
  | zero => intro _ h; omega
  | succ fuel ih =>
    intro ha _
    unfold retryBlockModel
    by_cases hc : a < N
    · rw [if_pos (by simpa using hc)]
      exact ih (a + 1) (by omega) (by omega)
    · have haN : a = N := by omega
      rw [if_neg (by simpa using hc), haN]

/-- C9 amended: `retryBlock` retries with a 5-second delay after every
failure and is unbounded: however many consecutive tries fail, it keeps
retrying (first conjunct: `N` failures are followed by the successful
try `N + 1`, for every `N`), it never surfaces a fatal error, and it
terminates only when some try succeeds (second conjunct: with every try
failing, no observation bound sees it return). -/
theorem c9_retry_unbounded (N fuel : Nat) (h : N < fuel) :
    retryBlockModel (fun k => decide (k < N)) 0 fuel = some (N + 1) ∧
    retryBlockModel (fun _ => true) 0 fuel = none := by
  constructor
  · exact retryBlockModel_firstFailN N 0 fuel (Nat.zero_le N) (by omega)
  · clear h
    suffices hgen : ∀ (fuel a : Nat), retryBlockModel (fun _ => true) a fuel = none from
      hgen fuel 0
    intro fuel
    induction fuel with
    | zero => intro a; rfl
    | succ fuel ih =>
      intro a
      unfold retryBlockModel
      rw [if_pos rfl]
      exact ih (a + 1)

/-- Witness for C9's amended theorem at `N = 9`, `fuel = 20`. -/
theorem c9_retry_unbounded_witness :
    retryBlockModel (fun k => decide (k < 9)) 0 20 = some 10 ∧
    retryBlockModel (fun _ => true) 0 20 = none :=
  c9_retry_unbounded 9 20 (by decide)

/-- C3 counterexample: the window holds block 100 with hash `0xaaa`,
and the fetched block 101 has parentHash `0xbbb` — yet `processBlock`
raises no error and appends the mismatching block to the window
(the source's `checkForReorg` call is commented out). -/
theorem c3_reorg_counterexample :
    blk101.parentHash ≠ pb100.hash ∧
    (processBlock envC3 [pb100] dbEmpty 101 true).toOption =
      some ([pb100,
             { number := 101, hash := "0xccc", parentHash := "0xbbb", confirmed := false }],
            { dbEmpty with lastBlock := some (101, 7) }) := by decide

/-- C3 amended: `checkForReorg` does raise a reorg error whenever the
window's last entry disagrees with the new block's parentHash — but
`processBlock` never invokes it (the call is commented out), so every
successfully fetched block is appended to the window unconditionally:
processing succeeds whenever the block number matches, and the new
window ends with the new block's entry, whatever its parentHash. -/
theorem c3_reorg_check_disabled (st : List PBlock) (block : Block) (last : PBlock)
    (env : Env) (db : DB) (n : Nat) (u : Bool)
    (hlast : st.getLast? = some last)
    (hmm : last.hash ≠ block.parentHash)
    (hn : (env.getBlock n).number = n) :
    checkForReorg st block =
      Except.error ("Reorg detected at block " ++ toString block.number) ∧
    ∃ (st1 : List PBlock) (db1 : DB),
      processBlock env st db n u = Except.ok (st1, db1) ∧
      st1.getLast? = some { number := (env.getBlock n).number, hash := (env.getBlock n).hash,
                            parentHash := (env.getBlock n).parentHash, confirmed := false } := by
  constructor
  · have hne : st.length > 0 := by
      cases st with
      | nil => simp at hlast
      | cons a t => simp
    unfold checkForReorg
    rw [if_pos hne, hlast]
    dsimp only
    rw [if_pos (by simpa using hmm)]
  · unfold processBlock
    rw [if_neg (by simpa using hn.symm)]
    refine ⟨_, _, rfl, ?_⟩
    dsimp only
    split
    · next hgt =>
      have hst : 1 ≤ st.length := by
        simp only [List.length_append, List.length_cons, List.length_nil, BLOCK_HISTORY] at hgt
        omega
      rw [List.drop_append_of_le_length hst]
      exact List.getLast?_concat _
    · exact List.getLast?_concat _

/-- Witness for C3's amended theorem on the concrete mismatching pair. -/
theorem c3_reorg_check_disabled_witness :
    checkForReorg [pb100] blk101 =
      Except.error ("Reorg detected at block " ++ toString blk101.number) ∧
    ∃ (st1 : List PBlock) (db1 : DB),
      processBlock envC3 [pb100] dbEmpty 101 true = Except.ok (st1, db1) ∧
      st1.getLast? = some { number := (envC3.getBlock 101).number,
                            hash := (envC3.getBlock 101).hash,
                            parentHash := (envC3.getBlock 101).parentHash,
                            confirmed := false } :=
  c3_reorg_check_disabled [pb100] blk101 pb100 envC3 dbEmpty 101 true
    (by decide) (by decide) (by decide)

/-- C1 counterexample: all the claim's premises hold — the transaction
succeeded, its cleaned calldata starts with `data:image/svg+xml,`, its
SHA-256 is in the pre-seeded dictionary and is not already inscribed —
yet processing returns `(some [], db)`: no ethscription row is
inserted and no `created` event is returned, because the early
`startsWith('data:')` return fires before the creation branch. -/
theorem c1_creation_counterexample :
    (strBytes "data:image/svg+xml,").isPrefixOf
        ((hexToBytes txC1.input).filter (fun b => b != 0)) = true ∧
    checkIsEthPhunk dbC1 (envC1.sha256hex
        ((hexToBytes txC1.input).filter (fun b => b != 0))) =
      some { sha := "sha-w1", tokenId := 42 } ∧
    checkEthscriptionExistsBySha dbC1 (envC1.sha256hex
        ((hexToBytes txC1.input).filter (fun b => b != 0))) = false ∧
    processEthscriptionsEvents envC1 dbC1 txC1 rcC1 0 = (some [], dbC1) := by decide

/-- A byte list starting with the svg data-URI marker starts with `data:`. -/
theorem dataMarker_of_svg {l : List Nat}
    (h : (strBytes "data:image/svg+xml,").isPrefixOf l = true) :
    (strBytes "data:").isPrefixOf l = true := by
  rw [List.isPrefixOf_iff_prefix] at h ⊢
  exact List.IsPrefix.trans (List.isPrefixOf_iff_prefix.mp (by decide)) h

/-- A byte list starting with the png data-URI marker starts with `data:`. -/
theorem dataMarker_of_png {l : List Nat}
    (h : (strBytes "data:image/png;base64,").isPrefixOf l = true) :
    (strBytes "data:").isPrefixOf l = true := by
  rw [List.isPrefixOf_iff_prefix] at h ⊢
  exact List.IsPrefix.trans (List.isPrefixOf_iff_prefix.mp (by decide)) h

/-- C1 amended: phunk creation is disabled in the code.  Every
successful transaction whose cleaned decoded calldata starts with
`data:` — in particular every creation candidate, whose payload starts
with `data:image/svg+xml,` or `data:image/png;base64,` — is returned
as `(some [], db)` at once: the event list is empty and the datastore
entirely unchanged, whatever the dictionary contains. -/
theorem c1_creation_disabled (env : Env) (db : DB) (txn : Tx) (receipt : Receipt)
    (createdAt : Nat)
    (hst : receipt.status = true)
    (hpre : (strBytes "data:image/svg+xml,").isPrefixOf
              ((hexToBytes txn.input).filter (fun b => b != 0)) = true ∨
            (strBytes "data:image/png;base64,").isPrefixOf
              ((hexToBytes txn.input).filter (fun b => b != 0)) = true ∨
            (strBytes "data:").isPrefixOf
              ((hexToBytes txn.input).filter (fun b => b != 0)) = true) :
    processEthscriptionsEvents env db txn receipt createdAt = (some [], db) := by
  have hdata : (strBytes "data:").isPrefixOf
      ((hexToBytes txn.input).filter (fun b => b != 0)) = true := by
    rcases hpre with h | h | h
    · exact dataMarker_of_svg h
    · exact dataMarker_of_png h
    · exact h
  unfold processEthscriptionsEvents
  rw [if_neg (by simp [hst])]
  dsimp only
  rw [if_pos hdata]

/-- Witness for C1's amended theorem on the concrete svg candidate. -/
theorem c1_creation_disabled_witness :
    processEthscriptionsEvents envC1 dbC1 txC1 rcC1 0 = (some [], dbC1) :=
  c1_creation_disabled envC1 dbC1 txC1 rcC1 0 (by decide) (Or.inl (by decide))

theorem find?_points_filter_ne (l : List (String × Nat)) (u v : String)
    (h : (v == u) = false) :
    (l.filter (fun p => !(p.1 == u))).find? (fun p => p.1 == v) =
      l.find? (fun p => p.1 == v) := by
  induction l with
  | nil => rfl
  | cons a t ih =>
    by_cases ha : (a.1 == u) = true
    · have hau : a.1 = u := beq_iff_eq.mp ha
      have hav : (a.1 == v) = false := by
        rw [beq_eq_false_iff_ne]
        rw [hau]
        exact fun he => (beq_eq_false_iff_ne.mp h) he.symm
      rw [List.filter_cons, if_neg (by simp [ha])]
      rw [List.find?_cons_of_neg _ (by simp [hav])]
      exact ih
    · rw [List.filter_cons, if_pos (by simp [ha])]
      by_cases hav : (a.1 == v) = true
      · rw [@List.find?_cons_of_pos _ (fun p => p.1 == v) a _ hav,
            @List.find?_cons_of_pos _ (fun p => p.1 == v) a _ hav]
      · rw [List.find?_cons_of_neg _ (by simp [hav]),
            List.find?_cons_of_neg _ (by simp [hav])]
        exact ih

theorem lookupPoints_update_self (db : DB) (u : String) (n : Nat) :
    lookupPoints (updateUserPoints db u n) u = some n := by
  unfold lookupPoints updateUserPoints
  rw [List.find?_cons_of_pos _ (by simp)]
  rfl

theorem lookupPoints_update_ne (db : DB) (u v : String) (n : Nat)
    (h : (v == u) = false) :
    lookupPoints (updateUserPoints db u n) v = lookupPoints db v := by
  have huv : (u == v) = false :=
    beq_eq_false_iff_ne.mpr (fun he => (beq_eq_false_iff_ne.mp h) he.symm)
  unfold lookupPoints updateUserPoints
  rw [List.find?_cons_of_neg _ (by simp [huv])]
  rw [find?_points_filter_ne _ u v h]

theorem pointsFoldl_not_mem (env : Env) (users : List String) :
    ∀ (db : DB) (v : String), v ∉ users →
      lookupPoints (users.foldl (distributePoints env) db) v = lookupPoints db v := by
  induction users with
  | nil => intro db v _; rfl
  | cons a t ih =>
    intro db v hv
    rw [List.foldl_cons]
    rw [ih _ v (fun hm => hv (List.mem_cons_of_mem a hm))]
    exact lookupPoints_update_ne db a v _
      (beq_eq_false_iff_ne.mpr (fun he => hv (he ▸ List.mem_cons_self a t)))

theorem pointsFoldl_mem (env : Env) (users : List String) :
    ∀ (db : DB) (u : String), u ∈ users →
      lookupPoints (users.foldl (distributePoints env) db) u = some (env.getPoints u) := by
  induction users with
  | nil => intro db u h; exact absurd h (List.not_mem_nil u)
  | cons a t ih =>
    intro db u hu
    rw [List.foldl_cons]
    by_cases hut : u ∈ t
    · exact ih _ u hut
    · have hua : u = a := by
        rcases List.mem_cons.mp hu with h | h
        · exact h
        · exact absurd h hut
      subst hua
      rw [pointsFoldl_not_mem env t _ u hut]
      exact lookupPoints_update_self db u (env.getPoints u)

/-- After `processPointsEvent`, every collected user's stored total is
the fresh on-chain value. -/
theorem processPointsEvent_lookup (env : Env) (db : DB) (logs : List LogRec)
    (user : String) (h : user ∈ collectPointsUsers logs) :
    lookupPoints (processPointsEvent env db logs) user = some (env.getPoints user) :=
  pointsFoldl_mem env (collectPointsUsers logs) db user h

/-- C4 counterexample: the transaction carries a points-contract log
with `PointsAdded(0xu1)` — the claim says the user's stored total is
then overwritten from the chain (here 77) regardless of other log
vocabularies — but because a bridge-contract log is also present, the
bridge branch returns early and points processing is skipped entirely:
the stored totals stay empty. -/
theorem c4_points_counterexample :
    (rcC4.logs.filter
        (fun log => log.address.jsLower == envC4.pointsAddress.jsLower)).length ≠ 0 ∧
    collectPointsUsers (rcC4.logs.filter
        (fun log => log.address.jsLower == envC4.pointsAddress.jsLower)) = ["0xu1"] ∧
    (processEthscriptionsEvents envC4 dbEmpty txC4 rcC4 0).2.points = [] ∧
    lookupPoints (processEthscriptionsEvents envC4 dbEmpty txC4 rcC4 0).2 "0xu1" = none := by
  decide

/-- C4 amended: the log-driven vocabularies are NOT processed purely in
addition to one another — a bridge log, or a marketplace block that
yields no events, returns early and skips points processing.  Provided
the transaction carries no bridge-contract log and no marketplace-
contract log, every points-contract log is processed: the distinct
`PointsAdded` users are collected and each one's stored total is
overwritten from a fresh chain points call. -/
theorem c4_points_processed (env : Env) (db : DB) (txn : Tx) (receipt : Receipt)
    (createdAt : Nat) (user : String)
    (hst : receipt.status = true)
    (hdata : (strBytes "data:").isPrefixOf
        ((hexToBytes txn.input).filter (fun b => b != 0)) = false)
    (hbridge : receipt.logs.filter
        (fun log => log.address.jsLower == env.bridgeAddress.jsLower) = [])
    (hmarket : receipt.logs.filter
        (fun log => log.address.jsLower == env.marketAddress.jsLower) = [])
    (huser : user ∈ collectPointsUsers (receipt.logs.filter
        (fun log => log.address.jsLower == env.pointsAddress.jsLower))) :
    lookupPoints (processEthscriptionsEvents env db txn receipt createdAt).2 user =
      some (env.getPoints user) := by
  have hphunk : ((strBytes "data:image/svg+xml,").isPrefixOf
        ((hexToBytes txn.input).filter (fun b => b != 0)) ||
      (strBytes "data:image/png;base64,").isPrefixOf
        ((hexToBytes txn.input).filter (fun b => b != 0))) = false := by
    cases hsvg : (strBytes "data:image/svg+xml,").isPrefixOf
        ((hexToBytes txn.input).filter (fun b => b != 0))
    · cases hpng : (strBytes "data:image/png;base64,").isPrefixOf
          ((hexToBytes txn.input).filter (fun b => b != 0))
      · rfl
      · exact absurd (dataMarker_of_png hpng) (by simp [hdata])
    · exact absurd (dataMarker_of_svg hsvg) (by simp [hdata])
  unfold processEthscriptionsEvents
  rw [if_neg (by simp [hst])]
  dsimp only
  rw [if_neg (by simp [hdata]), if_neg (by simp [hphunk])]
  rw [hmarket]
  rw [if_neg (by decide)]
  simp only [bridgeAndPointsTail]
  rw [hbridge]
  rw [if_neg (by decide)]
  have hplne : (receipt.logs.filter
      (fun log => log.address.jsLower == env.pointsAddress.jsLower)).length ≠ 0 := by
    intro hlen
    rw [List.length_eq_zero] at hlen
    rw [hlen] at huser
    exact absurd huser (List.not_mem_nil user)
  rw [if_pos (by simpa using hplne)]
  exact processPointsEvent_lookup env _ _ user huser

/-- Witness for C4's amended theorem: with only a points log present,
the user's stored total is overwritten from the chain (77). -/
theorem c4_points_processed_witness :
    lookupPoints (processEthscriptionsEvents envC4 dbEmpty txC4 rcC4w 0).2 "0xu1" =
      some (envC4.getPoints "0xu1") :=
  c4_points_processed envC4 dbEmpty txC4 rcC4w 0 "0xu1"
    (by decide) (by decide) (by decide) (by decide) (by decide)

/-- Looking an ethscription up after the compare-and-set owner update:
when the lookup found `e` and the update is keyed at `e`'s hashId, the
looked-up row is `e` with `prevOwner := old owner, owner := newOwner`. -/
theorem findEthscription_update (db : DB) (e : Ethscription)
    (hashId k newOwner : String)
    (hfind : findEthscriptionByHashId db hashId = some e)
    (hk : (e.hashId.jsLower == k.jsLower) = true) :
    findEthscriptionByHashId (updateEthscriptionOwner db k e.owner newOwner) hashId =
      some { e with prevOwner := some e.owner, owner := newOwner } := by
  unfold findEthscriptionByHashId at hfind ⊢
  unfold updateEthscriptionOwner
  rw [List.find?_map]
  have hpf : ((fun x : Ethscription => x.hashId.jsLower == hashId.jsLower) ∘
      (fun x : Ethscription =>
        if x.hashId.jsLower == k.jsLower && x.owner == e.owner
        then { x with prevOwner := some x.owner, owner := newOwner } else x)) =
      (fun x : Ethscription => x.hashId.jsLower == hashId.jsLower) := by
    funext x
    simp only [Function.comp]
    split <;> rfl
  rw [hpf, hfind]
  have hcond : (e.hashId.jsLower == k.jsLower && e.owner == e.owner) = true := by
    simp [hk]
  simp only [Option.map_some', hcond, if_pos]

theorem processContractTransferEvent_spec (db : DB) (txn : Tx) (createdAt : Nat)
    (fromA toA hashId : String) (lg : LogRec) (v : Nat) (hint : Option String)
    (now : Nat) :
    ((processContractTransferEvent db txn createdAt fromA toA hashId lg v hint now).1.isSome
        = specTransferAccepts db hashId fromA hint) ∧
    (specTransferAccepts db hashId fromA hint = false →
      processContractTransferEvent db txn createdAt fromA toA hashId lg v hint now = (none, db)) ∧
    (∀ e, findEthscriptionByHashId db hashId = some e →
      specTransferAccepts db hashId fromA hint = true →
      findEthscriptionByHashId
          (processContractTransferEvent db txn createdAt fromA toA hashId lg v hint now).2 hashId
        = some { e with prevOwner := some e.owner, owner := toA } ∧
      ∃ ev, (processContractTransferEvent db txn createdAt fromA toA hashId lg v hint now).1
          = some ev ∧
        ev.type = "transfer" ∧ ev.fromAddr = fromA.jsLower ∧
        ev.toAddr = (orZeroAddress toA).jsLower) := by
  rcases hfind : findEthscriptionByHashId db hashId with _ | e
  · refine ⟨?_, ?_, ?_⟩ <;>
      simp [processContractTransferEvent, specTransferAccepts, hfind]
  · have hm : (e.hashId.jsLower == hashId.jsLower) = true := by
      have hf2 := hfind
      unfold findEthscriptionByHashId at hf2
      have hm0 := List.find?_some hf2
      simpa using hm0
    by_cases hA : (e.owner.jsLower == fromA.jsLower) = true
    · by_cases hS : (match e.prevOwner, hint with
        | some p, some q => p.jsLower == q.jsLower
        | _, _ => true) = true
      · -- accepted
        have hres : processContractTransferEvent db txn createdAt fromA toA hashId lg v hint now =
            (some { txId := txn.hash ++ toString (jsOrNat3 lg.logIndex txn.transactionIndex now),
                    type := "transfer",
                    hashId := e.hashId.jsLower,
                    fromAddr := fromA.jsLower,
                    toAddr := (orZeroAddress toA).jsLower,
                    blockHash := txn.blockHash,
                    txIndex := txn.transactionIndex,
                    txHash := txn.hash,
                    blockNumber := txn.blockNumber,
                    blockTimestamp := createdAt,
                    value := toString v },
             updateEthscriptionOwner db e.hashId e.owner toA) := by
          unfold processContractTransferEvent
          rw [hfind]
          dsimp only
          rw [if_neg (by simp [hm, hA, hS])]
        refine ⟨?_, ?_, ?_⟩
        · rw [hres]
          simp [specTransferAccepts, hfind, hA, hS]
        · intro hfalse
          rw [specTransferAccepts, hfind] at hfalse
          simp only [hA, hS, Bool.and_self] at hfalse
          simp at hfalse
        · intro e2 hfind2 _
          have he2 : e2 = e := (Option.some.inj hfind2).symm
          subst he2
          constructor
          · rw [hres]
            exact findEthscription_update db e2 hashId e2.hashId toA hfind (by simp)
          · rw [hres]
            exact ⟨_, rfl, rfl, rfl, rfl⟩
      · -- prevOwner guard fails
        have hres : processContractTransferEvent db txn createdAt fromA toA hashId lg v hint now =
            (none, db) := by
          unfold processContractTransferEvent
          rw [hfind]
          dsimp only
          rw [if_pos (by
            simp only [Bool.or_eq_true, Bool.not_eq_true']
            right
            simpa using hS)]
        refine ⟨?_, fun _ => hres, ?_⟩
        · rw [hres]
          simp [specTransferAccepts, hfind, hS]
        · intro e2 hfind2 haccept
          rw [specTransferAccepts, hfind] at haccept
          simp only [Bool.and_eq_true] at haccept
          exact absurd haccept.2 hS
    · -- owner guard fails
      have hres : processContractTransferEvent db txn createdAt fromA toA hashId lg v hint now =
          (none, db) := by
        unfold processContractTransferEvent
        rw [hfind]
        dsimp only
        rw [if_pos (by
          simp only [Bool.or_eq_true, Bool.not_eq_true']
          left; right
          simpa using hA)]
      refine ⟨?_, fun _ => hres, ?_⟩
      · rw [hres]
        simp [specTransferAccepts, hfind, hA]
      · intro e2 hfind2 haccept
        rw [specTransferAccepts, hfind] at haccept
        simp only [Bool.and_eq_true] at haccept
        exact absurd haccept.1 hA

theorem processTransferEvent_spec (db : DB) (txn : Tx) (createdAt : Nat)
    (hashId : String) (idx : Option Nat) :
    ((processTransferEvent db hashId txn createdAt idx).1.isSome
        = specTransferAccepts db hashId txn.fromAddr none) ∧
    (specTransferAccepts db hashId txn.fromAddr none = false →
      processTransferEvent db hashId txn createdAt idx = (none, db)) ∧
    (∀ e, findEthscriptionByHashId db hashId = some e →
      specTransferAccepts db hashId txn.fromAddr none = true →
      findEthscriptionByHashId (processTransferEvent db hashId txn createdAt idx).2 hashId
        = some { e with prevOwner := some e.owner, owner := txn.toAddr } ∧
      ∃ ev, (processTransferEvent db hashId txn createdAt idx).1 = some ev ∧
        ev.type = "transfer" ∧ ev.fromAddr = txn.fromAddr.jsLower ∧
        ev.toAddr = (orZeroAddress txn.toAddr).jsLower) := by
  rcases hfind : findEthscriptionByHashId db hashId with _ | e
  · refine ⟨?_, ?_, ?_⟩ <;>
      simp [processTransferEvent, specTransferAccepts, hfind]
  · have hm : (e.hashId.jsLower == hashId.jsLower) = true := by
      have hf2 := hfind
      unfold findEthscriptionByHashId at hf2
      have hm0 := List.find?_some hf2
      simpa using hm0
    have hS : (match e.prevOwner, (none : Option String) with
        | some p, some q => p.jsLower == q.jsLower
        | _, _ => true) = true := by
      cases e.prevOwner <;> rfl
    by_cases hA : (e.owner.jsLower == txn.fromAddr.jsLower) = true
    · have hres : processTransferEvent db hashId txn createdAt idx =
          (some { txId := txn.hash ++ toString (jsOrNat idx txn.transactionIndex),
                  type := "transfer",
                  hashId := e.hashId.jsLower,
                  fromAddr := txn.fromAddr.jsLower,
                  toAddr := (orZeroAddress txn.toAddr).jsLower,
                  blockHash := txn.blockHash,
                  txIndex := txn.transactionIndex,
                  txHash := txn.hash,
                  blockNumber := txn.blockNumber,
                  blockTimestamp := createdAt,
                  value := toString txn.value },
           updateEthscriptionOwner db hashId e.owner txn.toAddr) := by
        unfold processTransferEvent
        rw [hfind]
        dsimp only
        rw [if_neg (by simp [hm, hA])]
      refine ⟨?_, ?_, ?_⟩
      · rw [hres]
        simp [specTransferAccepts, hfind, hA, hS]
      · intro hfalse
        rw [specTransferAccepts, hfind] at hfalse
        simp only [hA, hS, Bool.and_self] at hfalse
        simp at hfalse
      · intro e2 hfind2 _
        have he2 : e2 = e := (Option.some.inj hfind2).symm
        subst he2
        constructor
        · rw [hres]
          exact findEthscription_update db e2 hashId hashId txn.toAddr hfind hm
        · rw [hres]
          exact ⟨_, rfl, rfl, rfl, rfl⟩
    · have hres : processTransferEvent db hashId txn createdAt idx = (none, db) := by
        unfold processTransferEvent
        rw [hfind]
        dsimp only
        rw [if_pos (by
          simp only [Bool.or_eq_true, Bool.not_eq_true']
          right
          simpa using hA)]
      refine ⟨?_, fun _ => hres, ?_⟩
      · rw [hres]
        simp [specTransferAccepts, hfind, hA]
      · intro e2 hfind2 haccept
        rw [specTransferAccepts, hfind] at haccept
        simp only [Bool.and_eq_true] at haccept
        exact absurd haccept.1 hA

/-- C2: a transfer attempt — direct calldata or batch item
(`processTransferEvent`) and ESIP-1 / ESIP-2 contract log
(`processContractTransferEvent`) — changes ownership and produces a
`transfer` event exactly when the spec's guards hold: the record
exists, its owner equals the from-address case-insensitively, and the
prevOwner agreement is vacuous unless both sides are non-null.  On
acceptance the looked-up record has `prevOwner := old owner` and
`owner := to`; on any guard failure the result is `(none, db)` — no
event and an unchanged datastore. -/
theorem c2_transfer_guards (db : DB) (txn : Tx) (createdAt : Nat)
    (fromA toA hashId : String) (lg : LogRec) (v : Nat) (hint : Option String)
    (now : Nat) (idx : Option Nat) :
    ((processContractTransferEvent db txn createdAt fromA toA hashId lg v hint now).1.isSome
        = specTransferAccepts db hashId fromA hint) ∧
    (specTransferAccepts db hashId fromA hint = false →
      processContractTransferEvent db txn createdAt fromA toA hashId lg v hint now = (none, db)) ∧
    (∀ e, findEthscriptionByHashId db hashId = some e →
      specTransferAccepts db hashId fromA hint = true →
      findEthscriptionByHashId
          (processContractTransferEvent db txn createdAt fromA toA hashId lg v hint now).2 hashId
        = some { e with prevOwner := some e.owner, owner := toA } ∧
      ∃ ev, (processContractTransferEvent db txn createdAt fromA toA hashId lg v hint now).1
          = some ev ∧
        ev.type = "transfer" ∧ ev.fromAddr = fromA.jsLower ∧
        ev.toAddr = (orZeroAddress toA).jsLower) ∧
    ((processTransferEvent db hashId txn createdAt idx).1.isSome
        = specTransferAccepts db hashId txn.fromAddr none) ∧
    (specTransferAccepts db hashId txn.fromAddr none = false →
      processTransferEvent db hashId txn createdAt idx = (none, db)) ∧
    (∀ e, findEthscriptionByHashId db hashId = some e →
      specTransferAccepts db hashId txn.fromAddr none = true →
      findEthscriptionByHashId (processTransferEvent db hashId txn createdAt idx).2 hashId
        = some { e with prevOwner := some e.owner, owner := txn.toAddr } ∧
      ∃ ev, (processTransferEvent db hashId txn createdAt idx).1 = some ev ∧
        ev.type = "transfer" ∧ ev.fromAddr = txn.fromAddr.jsLower ∧
        ev.toAddr = (orZeroAddress txn.toAddr).jsLower) := by
  obtain ⟨h1, h2, h3⟩ :=
    processContractTransferEvent_spec db txn createdAt fromA toA hashId lg v hint now
  obtain ⟨h4, h5, h6⟩ := processTransferEvent_spec db txn createdAt hashId idx
  exact ⟨h1, h2, h3, h4, h5, h6⟩

/-- Witness for C2 on a concrete accepted ESIP-2 transfer: the guards
hold (owner matches, prevOwner hint agrees case-insensitively), the
record is updated and a `transfer` event is produced. -/
theorem c2_transfer_guards_witness :
    findEthscriptionByHashId
        (processContractTransferEvent dbC2 txA 0 "0xbbb" "0xddd" wordA logC2 5
          (some "0xppp") 9).2 wordA
      = some { ethC2 with prevOwner := some ethC2.owner, owner := "0xddd" } ∧
    ∃ ev, (processContractTransferEvent dbC2 txA 0 "0xbbb" "0xddd" wordA logC2 5
        (some "0xppp") 9).1 = some ev ∧
      ev.type = "transfer" ∧ ev.fromAddr = "0xbbb".jsLower ∧
      ev.toAddr = (orZeroAddress "0xddd").jsLower :=
  (c2_transfer_guards dbC2 txA 0 "0xbbb" "0xddd" wordA logC2 5 (some "0xppp")
    9 none).2.2.1 ethC2 (by decide) (by decide)

/-- C6 counterexample: an ESIP-1 transfer decoded from a log whose
`logIndex` is 0 — the produced event's txId is the transaction hash
concatenated with the transaction index 7, not with the logIndex 0,
because `log?.logIndex || txn.transactionIndex || Date.now()` treats
logIndex 0 as falsy. -/
theorem c6_txid_counterexample :
    ((processEsip1 dbC6 [logC6] txC6 0 999).1.map Event.txId) = [txC6.hash ++ "7"] ∧
    txC6.hash ++ "7" ≠ txC6.hash ++ toString logC6.logIndex := by decide

/-- Every event the marketplace processor returns carries
`txId = txHash ++ logIndex`. -/
theorem marketplace_txid_all (db : DB) (txn : Tx) (c : Nat) (dec : Decoded)
    (lg : LogRec) :
    ((processEtherPhunkMarketplaceEvent db txn c dec lg).1.all
      (fun ev => ev.txId == txn.hash ++ toString lg.logIndex)) = true := by
  unfold processEtherPhunkMarketplaceEvent
  repeat' (first | rfl | exact beq_self_eq_true _ | split | (dsimp only; split))

/-- Every event the contract-transfer processor returns carries
`txId = txHash ++ (logIndex || transactionIndex || now)`. -/
theorem contract_txid_all (db : DB) (txn : Tx) (c : Nat) (f t h : String)
    (lg : LogRec) (v : Nat) (p : Option String) (now : Nat) :
    ((processContractTransferEvent db txn c f t h lg v p now).1.all
      (fun ev => ev.txId ==
        txn.hash ++ toString (jsOrNat3 lg.logIndex txn.transactionIndex now))) = true := by
  unfold processContractTransferEvent
  repeat' (first | rfl | exact beq_self_eq_true _ | split | (dsimp only; split))

/-- C6 amended: event identity is deterministic only where the falsy-or
fallback cannot fire.  (a) Marketplace events always carry
`txId = txHash ++ logIndex`.  (b) ESIP-1/2 contract transfers carry
`txId = txHash ++ (logIndex || transactionIndex || now)`: logIndex 0
falls back to the transaction index and, if that is also 0, to the
wall clock — so (c) re-processing is idempotent exactly in the
non-fallback cases: with a non-zero logIndex the result does not
depend on the clock at all. -/
theorem c6_txid_structure :
    (∀ (db : DB) (txn : Tx) (c : Nat) (dec : Decoded) (lg : LogRec) (ev : Event),
      (processEtherPhunkMarketplaceEvent db txn c dec lg).1 = some ev →
      ev.txId = txn.hash ++ toString lg.logIndex) ∧
    (∀ (db : DB) (txn : Tx) (c : Nat) (f t h : String) (lg : LogRec) (v : Nat)
        (p : Option String) (now : Nat) (ev : Event),
      (processContractTransferEvent db txn c f t h lg v p now).1 = some ev →
      ev.txId = txn.hash ++ toString (jsOrNat3 lg.logIndex txn.transactionIndex now)) ∧
    (∀ (db : DB) (txn : Tx) (c : Nat) (f t h : String) (lg : LogRec) (v : Nat)
        (p : Option String) (now1 now2 : Nat),
      lg.logIndex ≠ 0 →
      processContractTransferEvent db txn c f t h lg v p now1 =
        processContractTransferEvent db txn c f t h lg v p now2) := by
  refine ⟨?_, ?_, ?_⟩
  · intro db txn c dec lg ev h
    have hall := marketplace_txid_all db txn c dec lg
    rw [h] at hall
    simpa using hall
  · intro db txn c f t h lg v p now ev hev
    have hall := contract_txid_all db txn c f t h lg v p now
    rw [hev] at hall
    simpa using hall
  · intro db txn c f t h lg v p now1 now2 hne
    have hj : ∀ c1 : Nat, jsOrNat3 lg.logIndex txn.transactionIndex c1 = lg.logIndex := by
      intro c1
      unfold jsOrNat3
      rw [if_pos (by simpa using hne)]
    unfold processContractTransferEvent
    split
    · rfl
    · dsimp only
      split
      · rfl
      · rw [hj now1, hj now2]

/-- Witness for C6's amended theorem: the concrete `PhunkBought` event
carries `txId = txHash ++ logIndex`. -/
theorem c6_txid_structure_witness :
    ∃ ev, (processEtherPhunkMarketplaceEvent dbM txM 0
        (Decoded.phunkBought wordC "0xs1" "0xbuyer" 10) logM).1 = some ev ∧
      ev.txId = txM.hash ++ toString logM.logIndex := by
  rcases hev : (processEtherPhunkMarketplaceEvent dbM txM 0
      (Decoded.phunkBought wordC "0xs1" "0xbuyer" 10) logM).1 with _ | ev
  · exact absurd hev (by decide)
  · exact ⟨ev, rfl, c6_txid_structure.1 dbM txM 0 _ logM ev hev⟩

theorem lookupListing_remove_self (db : DB) (h : String) :
    lookupListing (removeListing db h).2 h = none := by
  unfold lookupListing removeListing
  rw [List.find?_eq_none]
  intro x hx
  have hmem := List.mem_filter.mp hx
  simp only [Bool.not_eq_true'] at hmem
  simp [hmem.2]

theorem lookupListing_create_self (db : DB) (s : String) (c : Nat)
    (h t : String) (m : Nat) :
    lookupListing (createListing db s c h t m) h =
      some { hashId := h, seller := s, toAddress := t, minValue := m, createdAt := c } := by
  unfold lookupListing createListing
  rw [List.find?_cons_of_pos _ (by simp)]

/-- C7: the stale-listing rule of `PhunkOffered`, for an existing
ethscription.  When the record's prevOwner is non-null and differs
(the source compares raw, case-sensitively) from `tx.from`, any
existing listing for the hashId is deleted, no listing is created and
no event is emitted; otherwise the listing is upserted (replacing any
previous one) and a `PhunkOffered` event is emitted. -/
theorem c7_stale_listing_rule (db : DB) (txn : Tx) (createdAt : Nat) (lg : LogRec)
    (phunkId toAddress : String) (minValue : Nat) (phunk : Ethscription)
    (hid : (phunkId == "") = false)
    (hfind : findEthscriptionByHashId db phunkId = some phunk) :
    ((match phunk.prevOwner with
      | some p => !(p == txn.fromAddr)
      | none => false) = true →
      processEtherPhunkMarketplaceEvent db txn createdAt
          (Decoded.phunkOffered phunkId toAddress minValue) lg
        = (none, (removeListing db phunkId).2) ∧
      lookupListing (processEtherPhunkMarketplaceEvent db txn createdAt
          (Decoded.phunkOffered phunkId toAddress minValue) lg).2 phunkId = none) ∧
    ((match phunk.prevOwner with
      | some p => !(p == txn.fromAddr)
      | none => false) = false →
      (∃ ev, (processEtherPhunkMarketplaceEvent db txn createdAt
          (Decoded.phunkOffered phunkId toAddress minValue) lg).1 = some ev ∧
        ev.type = "PhunkOffered" ∧ ev.txId = txn.hash ++ toString lg.logIndex) ∧
      (processEtherPhunkMarketplaceEvent db txn createdAt
          (Decoded.phunkOffered phunkId toAddress minValue) lg).2
        = createListing db txn.fromAddr createdAt phunkId toAddress minValue ∧
      lookupListing (processEtherPhunkMarketplaceEvent db txn createdAt
          (Decoded.phunkOffered phunkId toAddress minValue) lg).2 phunkId
        = some { hashId := phunkId, seller := txn.fromAddr, toAddress := toAddress,
                 minValue := minValue, createdAt := createdAt }) := by
  constructor
  · intro hstale
    have hres : processEtherPhunkMarketplaceEvent db txn createdAt
        (Decoded.phunkOffered phunkId toAddress minValue) lg
        = (none, (removeListing db phunkId).2) := by
      unfold processEtherPhunkMarketplaceEvent
      dsimp only
      rw [if_neg (by simp [hid])]
      dsimp only
      rw [hfind]
      dsimp only
      rw [if_pos hstale]
    exact ⟨hres, by rw [hres]; exact lookupListing_remove_self db phunkId⟩
  · intro hfresh
    have hres : processEtherPhunkMarketplaceEvent db txn createdAt
        (Decoded.phunkOffered phunkId toAddress minValue) lg
        = (some { txId := txn.hash ++ toString lg.logIndex,
                  type := "PhunkOffered",
                  hashId := phunkId.jsLower,
                  fromAddr := txn.fromAddr.jsLower,
                  toAddr := toAddress.jsLower,
                  blockHash := txn.blockHash,
                  txIndex := txn.transactionIndex,
                  txHash := txn.hash,
                  blockNumber := txn.blockNumber,
                  blockTimestamp := createdAt,
                  value := toString minValue },
           createListing db txn.fromAddr createdAt phunkId toAddress minValue) := by
      unfold processEtherPhunkMarketplaceEvent
      dsimp only
      rw [if_neg (by simp [hid])]
      dsimp only
      rw [hfind]
      dsimp only
      rw [if_neg (by simp [hfresh])]
    refine ⟨⟨_, by rw [hres], rfl, rfl⟩, by rw [hres], ?_⟩
    rw [hres]
    exact lookupListing_create_self db txn.fromAddr createdAt phunkId toAddress minValue

/-- Witness for C7 on scenario S5: the phunk's prevOwner `0xs1` differs
from the sender `0xBBB2`, so the prior listing is deleted, no listing
remains and no event is produced. -/
theorem c7_stale_listing_rule_witness :
    processEtherPhunkMarketplaceEvent dbM txS5 0
        (Decoded.phunkOffered wordC zeroAddress 1000) logM
      = (none, (removeListing dbM wordC).2) ∧
    lookupListing (processEtherPhunkMarketplaceEvent dbM txS5 0
        (Decoded.phunkOffered wordC zeroAddress 1000) logM).2 wordC = none :=
  (c7_stale_listing_rule dbM txS5 0 logM wordC zeroAddress 1000 ethM
    (by decide) (by decide)).1 (by decide)

/-- C8: `PhunkBought`, for an existing ethscription: the listing for the
hashId is removed, and a `PhunkBought` event is returned if and only if
a listing was actually removed; when none was removed, no event is
produced and the listings table is unchanged. -/
theorem c8_bought_event_iff_removed (db : DB) (txn : Tx) (createdAt : Nat)
    (lg : LogRec) (phunkId fromAddress toAddress : String) (value : Nat)
    (phunk : Ethscription)
    (hid : (phunkId == "") = false)
    (hfind : findEthscriptionByHashId db phunkId = some phunk) :
    ((processEtherPhunkMarketplaceEvent db txn createdAt
        (Decoded.phunkBought phunkId fromAddress toAddress value) lg).1.isSome
      = (removeListing db phunkId).1) ∧
    (processEtherPhunkMarketplaceEvent db txn createdAt
        (Decoded.phunkBought phunkId fromAddress toAddress value) lg).2
      = (removeListing db phunkId).2 ∧
    lookupListing (processEtherPhunkMarketplaceEvent db txn createdAt
        (Decoded.phunkBought phunkId fromAddress toAddress value) lg).2 phunkId = none ∧
    (∀ ev, (processEtherPhunkMarketplaceEvent db txn createdAt
        (Decoded.phunkBought phunkId fromAddress toAddress value) lg).1 = some ev →
      ev.type = "PhunkBought" ∧ ev.txId = txn.hash ++ toString lg.logIndex ∧
      ev.fromAddr = fromAddress.jsLower ∧ ev.toAddr = toAddress.jsLower) ∧
    ((removeListing db phunkId).1 = false →
      (processEtherPhunkMarketplaceEvent db txn createdAt
        (Decoded.phunkBought phunkId fromAddress toAddress value) lg).2.listings
        = db.listings) := by
  cases hrm : (removeListing db phunkId).1 with
  | false =>
    have hres : processEtherPhunkMarketplaceEvent db txn createdAt
        (Decoded.phunkBought phunkId fromAddress toAddress value) lg
        = (none, (removeListing db phunkId).2) := by
      unfold processEtherPhunkMarketplaceEvent
      dsimp only
      rw [if_neg (by simp [hid])]
      dsimp only
      rw [hfind]
      dsimp only
      rw [hrm]
      rw [if_pos (by decide)]
    refine ⟨by rw [hres]; rfl, by rw [hres], ?_, ?_, ?_⟩
    · rw [hres]
      exact lookupListing_remove_self db phunkId
    · intro ev hev
      rw [hres] at hev
      simp at hev
    · intro _
      rw [hres]
      have hall : ∀ x ∈ db.listings, ¬(x.hashId.jsLower == phunkId.jsLower) = true := by
        have hany := hrm
        unfold removeListing at hany
        exact List.any_eq_false.mp (by simpa using hany)
      unfold removeListing
      dsimp only
      rw [List.filter_eq_self.mpr (by
        intro a ha
        simp [hall a ha])]
  | true =>
    have hres : processEtherPhunkMarketplaceEvent db txn createdAt
        (Decoded.phunkBought phunkId fromAddress toAddress value) lg
        = (some { txId := txn.hash ++ toString lg.logIndex,
                  type := "PhunkBought",
                  hashId := phunkId.jsLower,
                  fromAddr := fromAddress.jsLower,
                  toAddr := toAddress.jsLower,
                  blockHash := txn.blockHash,
                  txIndex := txn.transactionIndex,
                  txHash := txn.hash,
                  blockNumber := txn.blockNumber,
                  blockTimestamp := createdAt,
                  value := toString value },
           (removeListing db phunkId).2) := by
      unfold processEtherPhunkMarketplaceEvent
      dsimp only
      rw [if_neg (by simp [hid])]
      dsimp only
      rw [hfind]
      dsimp only
      rw [hrm]
      rw [if_neg (by decide)]
    refine ⟨by rw [hres]; rfl, by rw [hres], ?_, ?_, ?_⟩
    · rw [hres]
      exact lookupListing_remove_self db phunkId
    · intro ev hev
      rw [hres] at hev
      have h2 := Option.some.inj hev
      subst h2
      exact ⟨rfl, rfl, rfl, rfl⟩
    · intro hfalse
      cases hfalse

/-- C8 witness on the concrete bought listing: the listing existed, so
it is removed and the `PhunkBought` event is produced. -/
theorem c8_bought_event_iff_removed_witness :
    ((processEtherPhunkMarketplaceEvent dbM txM 0
        (Decoded.phunkBought wordC "0xs1" "0xbuyer" 10) logM).1.isSome
      = (removeListing dbM wordC).1) ∧
    (processEtherPhunkMarketplaceEvent dbM txM 0
        (Decoded.phunkBought wordC "0xs1" "0xbuyer" 10) logM).2
      = (removeListing dbM wordC).2 ∧
    lookupListing (processEtherPhunkMarketplaceEvent dbM txM 0
        (Decoded.phunkBought wordC "0xs1" "0xbuyer" 10) logM).2 wordC = none ∧
    (∀ ev, (processEtherPhunkMarketplaceEvent dbM txM 0
        (Decoded.phunkBought wordC "0xs1" "0xbuyer" 10) logM).1 = some ev →
      ev.type = "PhunkBought" ∧ ev.txId = txM.hash ++ toString logM.logIndex ∧
      ev.fromAddr = "0xs1".jsLower ∧ ev.toAddr = "0xbuyer".jsLower) ∧
    ((removeListing dbM wordC).1 = false →
      (processEtherPhunkMarketplaceEvent dbM txM 0
        (Decoded.phunkBought wordC "0xs1" "0xbuyer" 10) logM).2.listings
        = dbM.listings) :=
  c8_bought_event_iff_removed dbM txM 0 logM wordC "0xs1" "0xbuyer" 10 ethM
    (by decide) (by decide)

/-- `Char.toLower` is idempotent: a lowered character is outside the
`A`–`Z` range, so lowering it again changes nothing. -/
theorem Char.toLower_idem (c : Char) : c.toLower.toLower = c.toLower := by
  unfold Char.toLower
  dsimp only
  by_cases h : c.toNat ≥ 65 ∧ c.toNat ≤ 90
  · rw [if_pos h]
    have hvalid : (c.toNat + 32).isValidChar := Or.inl (by omega)
    have hval : (Char.ofNat (c.toNat + 32)).toNat = c.toNat + 32 := by
      rw [Char.ofNat, dif_pos hvalid]
      rfl
    rw [if_neg (by rw [hval]; omega)]
  · rw [if_neg h, if_neg h]

/-- `String.jsLower` is idempotent. -/
theorem String.jsLower_idem (s : String) : s.jsLower.jsLower = s.jsLower := by
  unfold String.jsLower
  have h1 : (String.mk (s.toList.map Char.toLower)).toList = s.toList.map Char.toLower := rfl
  rw [h1, List.map_map]
  exact congrArg String.mk (List.map_congr_left (fun a _ => Char.toLower_idem a))

/-- The compare-and-set owner update keyed at `k` leaves lookups of any
hashId that differs from `k` (lowercased) untouched. -/
theorem findEthscription_update_ne (db : DB) (k own nw h2 : String)
    (hne : (h2.jsLower == k.jsLower) = false) :
    findEthscriptionByHashId (updateEthscriptionOwner db k own nw) h2 =
      findEthscriptionByHashId db h2 := by
  unfold findEthscriptionByHashId updateEthscriptionOwner
  rw [List.find?_map]
  have hpf : ((fun x : Ethscription => x.hashId.jsLower == h2.jsLower) ∘
      (fun x : Ethscription =>
        if x.hashId.jsLower == k.jsLower && x.owner == own
        then { x with prevOwner := some x.owner, owner := nw } else x)) =
      (fun x : Ethscription => x.hashId.jsLower == h2.jsLower) := by
    funext x
    simp only [Function.comp]
    split <;> rfl
  rw [hpf]
  cases hf : db.ethscriptions.find? (fun x => x.hashId.jsLower == h2.jsLower) with
  | none => rfl
  | some e =>
    have hpe : (e.hashId.jsLower == h2.jsLower) = true := by
      have := List.find?_some hf
      simpa using this
    have hek : (e.hashId.jsLower == k.jsLower) = false := by
      rw [beq_iff_eq.mp hpe]
      exact hne
    simp only [Option.map_some']
    rw [if_neg (by simp [hek])]

set_option maxRecDepth 10000 in
/-- C5 counterexample: a batch of three words of which the validator
returns the first and the third (`wordA`, `wordE`), both owned by the
sender.  The claim says the two events carry txIds `hash ++ 0` and
`hash ++ 2` — the words' positions within the batch.  The code instead
numbers positions within the validator's returned list, and position 0
is falsy so it falls back to the transaction index 7: the actual txIds
are `hash ++ 7` and `hash ++ 1`. -/
theorem c5_batch_counterexample :
    envC5.validateEthscriptions
        ((chunk64 (txC5.input.toList.drop 2)).map (fun w => "0x" ++ String.mk w))
      = [wordA, wordE] ∧
    ((processEsip5 envC5 dbC5 txC5 0).1).map Event.txId
      = [txC5.hash ++ "7", txC5.hash ++ "1"] ∧
    [txC5.hash ++ "7", txC5.hash ++ "1"] ≠ [txC5.hash ++ "0", txC5.hash ++ "2"] := by
  decide

/-- The batch loop's event txIds: when every validator-returned hash
resolves to a sender-owned ethscription and the lowercased hashes are
distinct, the loop accepts every word in order and the `k`-th produced
event (loop counter `i + k`) carries
`txId = txHash ++ (i + k || transactionIndex)`. -/
theorem esip5Loop_txids (txn : Tx) (c : Nat) :
    ∀ (valid : List String) (db : DB) (i : Nat),
      (∀ h ∈ valid, ∃ e, findEthscriptionByHashId db h.jsLower = some e ∧
        (e.owner.jsLower == txn.fromAddr.jsLower) = true) →
      (valid.map String.jsLower).Nodup →
      ((esip5Loop txn c db valid i).1).map Event.txId =
        (List.range' i valid.length).map
          (fun j => txn.hash ++ toString (jsOrNat (some j) txn.transactionIndex)) := by
  intro valid
  induction valid with
  | nil => intro db i _ _; rfl
  | cons h rest ih =>
    intro db i hown hnodup
    obtain ⟨e, hfind, howner⟩ := hown h (List.mem_cons_self h rest)
    have hmatch : (e.hashId.jsLower == h.jsLower.jsLower) = true := by
      have hf2 := hfind
      unfold findEthscriptionByHashId at hf2
      simpa using List.find?_some hf2
    have hstep : processTransferEvent db h.jsLower txn c (some i) =
        (some { txId := txn.hash ++ toString (jsOrNat (some i) txn.transactionIndex),
                type := "transfer",
                hashId := e.hashId.jsLower,
                fromAddr := txn.fromAddr.jsLower,
                toAddr := (orZeroAddress txn.toAddr).jsLower,
                blockHash := txn.blockHash,
                txIndex := txn.transactionIndex,
                txHash := txn.hash,
                blockNumber := txn.blockNumber,
                blockTimestamp := c,
                value := toString txn.value },
         updateEthscriptionOwner db h.jsLower e.owner txn.toAddr) := by
      unfold processTransferEvent
      rw [hfind]
      dsimp only
      rw [if_neg (by simp [hmatch, howner])]
    unfold esip5Loop
    rw [hstep]
    dsimp only
    simp only [List.length_cons]
    rw [List.range'_succ]
    simp only [List.map_cons]
    congr 1
    apply ih
    · intro h2 hh2
      obtain ⟨e2, hfind2, hown2⟩ := hown h2 (List.mem_cons_of_mem h hh2)
      refine ⟨e2, ?_, hown2⟩
      rw [findEthscription_update_ne]
      · exact hfind2
      · rw [String.jsLower_idem, String.jsLower_idem]
        have hne : h2.jsLower ≠ h.jsLower := by
          simp only [List.map_cons, List.nodup_cons] at hnodup
          intro he
          exact hnodup.1 (he ▸ List.mem_map_of_mem String.jsLower hh2)
        exact beq_eq_false_iff_ne.mpr hne
    · simp only [List.map_cons, List.nodup_cons] at hnodup
      exact hnodup.2

/-- C5 amended: for calldata that is a whole number of 32-byte words,
the words are validated as one list through the external validator and
each validator-returned word that resolves to a sender-owned
ethscription yields one `transfer` event, processed in the order of the
validator's list — but each event's txId is the transaction hash
concatenated with the word's position within the VALIDATOR'S list (not
the batch), and position 0, being falsy, falls back to the transaction
index. -/
theorem c5_batch_txids (env : Env) (db : DB) (txn : Tx) (c : Nat)
    (hlen : (txn.input.toList.drop 2).length % SEGMENT_SIZE = 0)
    (hown : ∀ h ∈ env.validateEthscriptions
        ((chunk64 (txn.input.toList.drop 2)).map (fun w => "0x" ++ String.mk w)),
      ∃ e, findEthscriptionByHashId db h.jsLower = some e ∧
        (e.owner.jsLower == txn.fromAddr.jsLower) = true)
    (hnodup : ((env.validateEthscriptions
        ((chunk64 (txn.input.toList.drop 2)).map (fun w => "0x" ++ String.mk w))).map
          String.jsLower).Nodup) :
    ((processEsip5 env db txn c).1).map Event.txId =
      (List.range' 0 (env.validateEthscriptions
          ((chunk64 (txn.input.toList.drop 2)).map (fun w => "0x" ++ String.mk w))).length).map
        (fun j => txn.hash ++ toString (jsOrNat (some j) txn.transactionIndex)) := by
  unfold processEsip5
  dsimp only
  rw [if_neg (by simp only [hlen]; decide)]
  cases hv : env.validateEthscriptions
      ((chunk64 (txn.input.toList.drop 2)).map (fun w => "0x" ++ String.mk w)) with
  | nil =>
    rw [if_pos (by simp)]
    rfl
  | cons a rest =>
    rw [if_neg (by simp)]
    rw [hv] at hown hnodup
    exact esip5Loop_txids txn c (a :: rest) db 0 hown hnodup

set_option maxRecDepth 10000 in
/-- Witness for C5's amended theorem on the concrete three-word batch:
valid list `[wordA, wordE]`, txIds `hash ++ 7` and `hash ++ 1`. -/
theorem c5_batch_txids_witness :
    ((processEsip5 envC5 dbC5 txC5 0).1).map Event.txId =
      (List.range' 0 (envC5.validateEthscriptions
          ((chunk64 (txC5.input.toList.drop 2)).map (fun w => "0x" ++ String.mk w))).length).map
        (fun j => txC5.hash ++ toString (jsOrNat (some j) txC5.transactionIndex)) := by
  have hv : envC5.validateEthscriptions
      ((chunk64 (txC5.input.toList.drop 2)).map (fun w => "0x" ++ String.mk w))
      = [wordA, wordE] := by decide
  exact c5_batch_txids envC5 dbC5 txC5 0 (by decide)
    (by
      rw [hv]
      intro h hh
      cases hh with
      | head => exact ⟨ethA, by decide, by decide⟩
      | tail _ hh2 =>
        cases hh2 with
        | head => exact ⟨ethE5, by decide, by decide⟩
        | tail _ hh3 => cases hh3)
    (by rw [hv]; decide)
